import Mathlib

/-!
# arm-mixin: a shallow embedding of the install flow

Sources embedded here:

* `pkg/arm/install.go`   : `parseInstallAction`, `Install`, `getCorrelationId`,
  `validateInstallArguments`, `processArmOutput`, the settings getters,
  `createMongoRepository`, `updateStatus`;
* `pkg/arm/arm.go`       : `getPayloadData`, `getARMDeployer`;
* `pkg/arm/auth/authorizer.go` : `GetBearerTokenAuthorizer`,
  `newServicePrincipalToken`, `verifyAccessToken`, `validateClaim`;
* `pkg/arm/db/MongoStatusUpdate.go` : `Status`, `RecordStatus`,
  `NewMongoClientHelper`, `DisconnectMongoClient`;
* `pkg/arm/templates/template.go` : `FindTemplate`.

Conventions.  A Go `error` is modelled by its message (`Error := String`), the
nil error by `none`.  A Go `map[string]interface{}` is an association list read
by first match; the nil map is `none`.  Functions that talk to the outside world
take their collaborators as parameters and return the list of the calls they
made (`Event`) next to their result.  A Go panic is an explicit outcome.
-/

namespace Arm

/-! ## Dynamic values and maps -/

/-- Go `interface{}` values as they come out of the YAML and JSON decoders. -/
inductive Value where
  | null
  | bool (b : Bool)
  | int (n : Int)
  | str (s : String)
  | list (xs : List Value)
  | obj (kv : List (String × Value))

/-- The entries of a non-nil Go `map[string]interface{}`. -/
abbrev Entries := List (String × Value)

/-- Go `error`, identified with its message; `err.Error()` is the string itself. -/
abbrev Error := String

/-- Read `m[k]` with the comma-ok form: `none` when the key is absent. -/
def lookup (k : String) : Entries → Option Value
  | [] => none
  | (k', v) :: rest => if k' = k then some v else lookup k rest

/-- Assignment `m[k] = v`: replace the entry of `k` or add one. -/
def setKey (k : String) (v : Value) : Entries → Entries
  | [] => [(k, v)]
  | (k', v') :: rest => if k' = k then (k, v) :: rest else (k', v') :: setKey k v rest

/-- Builtin `delete(m, k)`. -/
def deleteKey (k : String) (m : Entries) : Entries :=
  m.filter (fun e => decide (e.1 ≠ k))

/-- Read `m[k]` on a possibly nil map, comma-ok form. -/
def mapGet (m : Option Entries) (k : String) : Option Value :=
  match m with
  | none => none
  | some es => lookup k es

/-- Plain index `m[k]`: the zero value (nil interface) when the key is absent. -/
def mapIndex (m : Option Entries) (k : String) : Value :=
  match mapGet m k with
  | none => Value.null
  | some v => v

/-- Comparison `x == nil` of an `interface{}`. -/
def Value.isNil : Value → Bool
  | Value.null => true
  | _ => false

/-- Type assertion `x.(string)` in comma-ok form. -/
def Value.asString : Value → Option String
  | Value.str s => some s
  | _ => none

/-- Type assertion `x.(int)` in comma-ok form. -/
def Value.asInt : Value → Option Int
  | Value.int n => some n
  | _ => none

/-- The three ways a Go call can end: a value, an error, or a panic. -/
inductive Outcome (α : Type) where
  | ok (a : α)
  | error (e : Error)
  | panic (reason : String)

/-! ## strings.TrimSpace -/

/-- Go `unicode.IsSpace`: the Latin-1 spaces and the Unicode White_Space range table. -/
def isSpace (c : Char) : Bool :=
  let n := c.toNat
  (9 ≤ n && n ≤ 13) || n == 32 || n == 133 || n == 160 || n == 5760 ||
    (8192 ≤ n && n ≤ 8202) || n == 8232 || n == 8233 || n == 8239 || n == 8287 || n == 12288

/-- Go `strings.TrimSpace` on the characters of a string. -/
def trimSpaceChars (cs : List Char) : List Char :=
  ((cs.dropWhile isSpace).reverse.dropWhile isSpace).reverse

/-- Go `strings.TrimSpace`. -/
def trimSpace (s : String) : String := ⟨trimSpaceChars s.data⟩

/-- The test `len(strings.TrimSpace(s)) == 0`. -/
def isBlank (s : String) : Bool := (trimSpaceChars s.data).isEmpty

/-! ## install.go: the request -/

/-- Modelled from the spec: the declaration of `AzureOutput` is not among the sources; the
spec gives a declared output as a pair of a source key and a destination name, and the test
builds it from two strings. -/
structure AzureOutput where
  Name : String
  Key : String
deriving DecidableEq, Repr

/-- Go struct `InstallArguments`.  Modelled from the spec: the declaration of the inlined
`Step` is not among the sources; the test reads a description and the declared outputs from
it, which are the first two fields here. -/
structure InstallArguments where
  Description : String
  Outputs : List AzureOutput
  Template : String
  Name : String
  ResourceGroup : String
  Parameters : Option Entries
  Settings : Option Entries

/-- Go struct `InstallAction`: the steps under the `install` key. -/
structure InstallAction where
  Steps : List InstallArguments

/-- The zero value `InstallArguments{}`. -/
def InstallArguments.zero : InstallArguments :=
  { Description := "", Outputs := [], Template := "", Name := "", ResourceGroup := "",
    Parameters := none, Settings := none }

/-- Go `parseInstallAction`; `unmarshal` is `yaml.Unmarshal` into an `InstallAction`. -/
def parseInstallAction (unmarshal : String → Except Error InstallAction) (payload : String) :
    InstallArguments × Option Error :=
  match unmarshal payload with
  | .error err => (InstallArguments.zero, some err)
  | .ok action =>
    match action.Steps with
    | [step] => (step, none)
    | steps => (InstallArguments.zero,
        some ("expected a single step, but got " ++ toString steps.length))

/-- Go `validateInstallArguments`. -/
def validateInstallArguments (a : InstallArguments) : Option Error :=
  if a.Template = "" then some "template is required"
  else if a.Name = "" then some "name is required"
  else if a.ResourceGroup = "" then some "resourceGroup is required"
  else if a.Parameters.isNone then some "parameters is required"
  else if (mapIndex a.Parameters "location").isNil then some "location is required in parameters"
  else if (mapIndex a.Parameters "location").asString.isNone then some "location must be a string"
  else none

/-- Go `getPollingDuration`. -/
def getPollingDuration (a : InstallArguments) : Int :=
  match a.Settings with
  | none => 30
  | some _ =>
    match (mapIndex a.Settings "pollingDuration").asInt with
    | some duration => duration
    | none => 30

/-- Go `getDatabaseName`. -/
def getDatabaseName (a : InstallArguments) : String :=
  match a.Settings with
  | none => "porter"
  | some _ =>
    match (mapIndex a.Settings "databaseName").asString with
    | some dbName => dbName
    | none => "porter"

/-- Go `getCollectionName`. -/
def getCollectionName (a : InstallArguments) : String :=
  match a.Settings with
  | none => "status"
  | some _ =>
    match (mapIndex a.Settings "collectionName").asString with
    | some cname => cname
    | none => "status"

/-! ## db/MongoStatusUpdate.go -/

/-- Go struct `Status`; `StatusReportedOn` is a clock reading, `Id` is empty when unset. -/
structure Status where
  Id : String
  SubscriptionId : String
  ResourceGroupName : String
  ResourceName : String
  ItemName : String
  ItemType : String
  MixInName : String
  IsActive : Bool
  ExecutionStatus : String
  StatusReportedOn : Nat
  InstallationName : String
  InstallationNameSpace : String
  CorrelationId : String
  PorterCorrelationId : String
  CnabRevision : String
  Output : String
deriving DecidableEq, Repr

/-- The values a status document holds. -/
inductive BsonValue where
  | str (s : String)
  | bool (b : Bool)
  | time (t : Nat)
  | objectId (n : Nat)
deriving DecidableEq, Repr

/-- A BSON document: field names with their values. -/
abbrev Document := List (String × BsonValue)

/-- The status collection on the server. -/
abbrev Collection := List Document

/-- Read a field of a document. -/
def Document.field (d : Document) (k : String) : Option BsonValue :=
  match d with
  | [] => none
  | (k', v) :: rest => if k' = k then some v else Document.field rest k

/-- The document the driver stores for a `Status`.  The struct carries one tag,
`bson:"_id,omitempty"` on `Id`; every other field goes under the driver's default key, the
lower-cased field name. -/
def Status.toDocument (s : Status) : Document :=
  (if s.Id = "" then [] else [("_id", BsonValue.str s.Id)]) ++
  [ ("subscriptionid", BsonValue.str s.SubscriptionId),
    ("resourcegroupname", BsonValue.str s.ResourceGroupName),
    ("resourcename", BsonValue.str s.ResourceName),
    ("itemname", BsonValue.str s.ItemName),
    ("itemtype", BsonValue.str s.ItemType),
    ("mixinname", BsonValue.str s.MixInName),
    ("isactive", BsonValue.bool s.IsActive),
    ("executionstatus", BsonValue.str s.ExecutionStatus),
    ("statusreportedon", BsonValue.time s.StatusReportedOn),
    ("installationname", BsonValue.str s.InstallationName),
    ("installationnamespace", BsonValue.str s.InstallationNameSpace),
    ("correlationid", BsonValue.str s.CorrelationId),
    ("portercorrelationid", BsonValue.str s.PorterCorrelationId),
    ("cnabrevision", BsonValue.str s.CnabRevision),
    ("output", BsonValue.str s.Output) ]

/-- An equality filter matches a document when every filter field is in the document, under
exactly that name, with that value. -/
def matchesFilter (filter : Document) (d : Document) : Bool :=
  filter.all (fun kv => decide (d.field kv.1 = some kv.2))

/-- Replace the first document that matches; `none` when no document matches.  The replaced
document keeps its `_id`. -/
def replaceFirst (filter replacement : Document) : Collection → Option Collection
  | [] => none
  | d :: rest =>
    if matchesFilter filter d then
      some (((match d.field "_id" with
              | some oid => [("_id", oid)]
              | none => []) ++ replacement.filter (fun kv => decide (kv.1 ≠ "_id"))) :: rest)
    else
      (replaceFirst filter replacement rest).map (fun rest' => d :: rest')

/-- The driver call `ReplaceOne(ctx, filter, replacement, options.Replace().SetUpsert(true))`:
replace the first match, and insert the replacement under a new `_id` when nothing matches. -/
def replaceOneUpsert (coll : Collection) (filter replacement : Document) : Collection :=
  match replaceFirst filter replacement coll with
  | some coll' => coll'
  | none =>
    match replacement.field "_id" with
    | some _ => coll ++ [replacement]
    | none => coll ++ [("_id", BsonValue.objectId coll.length) :: replacement]

/-- The filter `RecordStatus` builds, key by key as written in the source. -/
def recordStatusFilter (status : Status) : Document :=
  [ ("subscriptionid", BsonValue.str status.SubscriptionId),
    ("resourcegroupname", BsonValue.str status.ResourceGroupName),
    ("CorrelationId", BsonValue.str status.CorrelationId),
    ("mixinname", BsonValue.str status.MixInName),
    ("isactive", BsonValue.bool true) ]

/-- Go `StatusRepository.RecordStatus`; `driverError` is the error of the driver call, if
any, in which case the collection is left as it was. -/
def RecordStatus (driverError : Option Error) (coll : Collection) (status : Status) :
    Collection × Option Error :=
  match driverError with
  | some err => (coll, some err)
  | none => (replaceOneUpsert coll (recordStatusFilter status) status.toDocument, none)

/-- A document is an active record of the identity key
(subscriptionId, resourceGroupName, correlationId, mixin name). -/
def isActiveRecordOf (sub rg corr mixin : String) (d : Document) : Bool :=
  decide (d.field "subscriptionid" = some (BsonValue.str sub)) &&
  decide (d.field "resourcegroupname" = some (BsonValue.str rg)) &&
  decide (d.field "correlationid" = some (BsonValue.str corr)) &&
  decide (d.field "mixinname" = some (BsonValue.str mixin)) &&
  decide (d.field "isactive" = some (BsonValue.bool true))

/-- The active records of an identity key in the collection. -/
def activeRecordsOf (sub rg corr mixin : String) (coll : Collection) : List Document :=
  coll.filter (isActiveRecordOf sub rg corr mixin)

/-! ## auth/authorizer.go -/

/-- The constant `MicrosoftEntraIDCommonPublicKeysEndpoint`. -/
def MicrosoftEntraIDCommonPublicKeysEndpoint : String :=
  "https://login.microsoftonline.com/common/discovery/v2.0/keys"

/-- The constant `TokenType`. -/
def TokenType : String := "Bearer"

/-- Go type `OAuthTokenGrantFlow` with its two constants. -/
inductive OAuthTokenGrantFlow where
  | ClientCredentials
  | Undefined
deriving DecidableEq, Repr

/-- The two endpoints of `azure.Environment` the code reads. -/
structure Environment where
  ActiveDirectoryEndpoint : String
  ResourceManagerEndpoint : String
deriving DecidableEq, Repr

/-- Library struct `adal.Token`, the fields the code sets (`Type_` is the field `Type`). -/
structure AdalToken where
  AccessToken : String
  ExpiresIn : String
  ExpiresOn : String
  NotBefore : String
  Resource : String
  Type_ : String
deriving DecidableEq, Repr

/-- The zero value `adal.Token{}`. -/
def AdalToken.zero : AdalToken :=
  { AccessToken := "", ExpiresIn := "", ExpiresOn := "", NotBefore := "", Resource := "",
    Type_ := "" }

/-- Go struct `ServicePrincipalTokenParameters`. -/
structure ServicePrincipalTokenParameters where
  AzureEnvironment : Environment
  TenantID : String
  ClientID : String
  ClientSecret : String
  Resource : String
  Token : AdalToken
deriving DecidableEq, Repr

/-- The registered claims the code reads from `jwt.RegisteredClaims`: the audience and the
two `*NumericDate` pointers, nil (`none`) when the token carries no such claim, else the Unix
time in seconds. -/
structure RegisteredClaims where
  Audience : List String
  NotBefore : Option Int
  ExpiresAt : Option Int
deriving DecidableEq, Repr

/-- Go struct `AccessTokenAzureClaims`. -/
structure AccessTokenAzureClaims where
  AppID : String
  TenantID : String
  Registered : RegisteredClaims
deriving DecidableEq, Repr

/-- An RSA public key, by name. -/
abbrev PublicKey := Nat

/-- One key of the fetched set: its key id and what `Raw` gives for an RSA public key. -/
structure JwkKey where
  KeyID : String
  Raw : Except Error PublicKey

/-- The key set `jwk.Fetch` returns. -/
abbrev KeySet := List JwkKey

/-- Library call `keySet.LookupKeyID(kid)`: the first key with that id. -/
def LookupKeyID (keySet : KeySet) (kid : String) : Option JwkKey :=
  keySet.find? (fun k => decide (k.KeyID = kid))

/-- A parsed token as the key function and the caller see it: the algorithm name of its
signing method, its header, its claims and the `Valid` flag. -/
structure Token where
  Method : String
  Header : Entries
  Claims : AccessTokenAzureClaims
  Valid : Bool

/-- The result of `adal.NewOAuthConfig`: the authority endpoint and the tenant it was built
for. -/
structure OAuthConfig where
  AuthorityEndpoint : String
  TenantID : String
deriving DecidableEq, Repr

/-- The token provider, by the library constructor that built it and its arguments. -/
inductive ServicePrincipalToken where
  | fromClientCredentials (cfg : OAuthConfig) (clientID secret resource : String)
  | fromManualToken (cfg : OAuthConfig) (clientID resource : String) (token : AdalToken)
deriving DecidableEq, Repr

/-- Library struct `autorest.BearerAuthorizer` around its token provider. -/
structure BearerAuthorizer where
  tokenProvider : ServicePrincipalToken
deriving DecidableEq, Repr

/-- The collaborators of the auth package: the key-set fetch, the three stages of the JWT
library around the key function, and the failures of the adal constructors. -/
structure AuthEnv where
  /-- Result of `jwk.Fetch`; `none` is a failed fetch, whose error the code drops and whose
  key set is nil. -/
  fetchKeys : String → Option KeySet
  /-- The library decodes the token text and finds its signing method. -/
  parseUnverified : String → Except Error Token
  /-- The library checks the signature with the key the key function returned. -/
  verifySignature : Token → PublicKey → Option Error
  /-- The library validates the registered claims (expiry, not-before, ...). -/
  validateRegistered : Token → Option Error
  /-- The error of `adal.NewOAuthConfig(endpoint, tenant)`, if any. -/
  newOAuthConfigError : String → String → Option Error
  /-- The error of `adal.NewServicePrincipalToken`, if any. -/
  newServicePrincipalTokenError : OAuthConfig → String → String → String → Option Error
  /-- The error of `adal.NewServicePrincipalTokenFromManualToken`, if any. -/
  newManualTokenError : OAuthConfig → String → String → AdalToken → Option Error

/-! ## The calls a run makes -/

/-- The observable calls of a run, in order. -/
inductive Event where
  | out (text : String)
  | jwkFetch (url : String)
  | verifyAccessToken (accessToken : String)
  | newOAuthConfig (endpoint tenantID : String)
  | newServicePrincipalToken (cfg : OAuthConfig) (clientID clientSecret resource : String)
  | newServicePrincipalTokenFromManualToken (cfg : OAuthConfig) (clientID resource : String)
      (token : AdalToken)
  | fsOpen (path : String)
  | mongoConnect (uri : String)
  | mongoPing (uri : String)
  | deploy (name resourceGroup location template : String) (parameters : Option Entries)
  | writeFile (name contents : String)
  | recordStatus (status : Status)
  | disconnectMongoClient

/-- Sort helper: strict order of two strings, character by character, as Go compares
strings. -/
def ltChars : List Char → List Char → Bool
  | [], [] => false
  | [], _ :: _ => true
  | _ :: _, [] => false
  | a :: as, b :: bs =>
    if a.toNat < b.toNat then true
    else if b.toNat < a.toNat then false
    else ltChars as bs

/-- Insert a rendered entry into a list sorted by key. -/
def insertByKey (k v : String) : List (String × String) → List (String × String)
  | [] => [(k, v)]
  | (k', v') :: rest =>
    if ltChars k.data k'.data then (k, v) :: (k', v') :: rest
    else (k', v') :: insertByKey k v rest

/-- Sort rendered entries by key. -/
def sortByKey : List (String × String) → List (String × String)
  | [] => []
  | (k, v) :: rest => insertByKey k v (sortByKey rest)

mutual
/-- Go `fmt` verb `%v` on a dynamic value. -/
def fmtV : Value → String
  | Value.null => "<nil>"
  | Value.bool b => if b then "true" else "false"
  | Value.int n => toString n
  | Value.str s => s
  | Value.list xs => "[" ++ " ".intercalate (fmtList xs) ++ "]"
  | Value.obj kv =>
    "map[" ++ " ".intercalate ((sortByKey (fmtEntries kv)).map (fun e => e.1 ++ ":" ++ e.2)) ++ "]"
/-- The elements of a slice under `%v`. -/
def fmtList : List Value → List String
  | [] => []
  | x :: xs => fmtV x :: fmtList xs
/-- The entries of a map under `%v`. -/
def fmtEntries : List (String × Value) → List (String × String)
  | [] => []
  | (k, v) :: rest => (k, fmtV v) :: fmtEntries rest
end

/-- Go `validateClaim`. -/
def validateClaim (claim name : String) : Option Error :=
  if isBlank claim then
    some ("the claim \x27" ++ name ++ "\x27 is not found in the access token")
  else none

/-- The key function `verifyAccessToken` hands to `jwt.ParseWithClaims`.  A nil key set
(failed fetch) makes `keySet.LookupKeyID` panic. -/
def keyFunc (keySet : Option KeySet) (token : Token) : Outcome PublicKey :=
  if token.Method ≠ "RS256" then
    Outcome.error ("unexpected signing method: " ++ fmtV (mapIndex (some token.Header) "alg"))
  else
    match (mapIndex (some token.Header) "kid").asString with
    | none => Outcome.error "the header \x27kid\x27 is not found"
    | some kid =>
      match keySet with
      | none => Outcome.panic "invalid memory address or nil pointer dereference"
      | some keys =>
        match LookupKeyID keys kid with
        | none => Outcome.error ("the key \x27" ++ kid ++ "\x27 not found")
        | some key =>
          match key.Raw with
          | Except.error _ => Outcome.error "unable to parse the public key"
          | Except.ok publickey => Outcome.ok publickey

/-- Library call `jwt.ParseWithClaims` (golang-jwt v5): decode the token, ask the key function
for the key and report its error as an unverifiable token, check the signature, validate the
registered claims, and only then mark the token valid. -/
def ParseWithClaims (env : AuthEnv) (tokenString : String)
    (keyfunc : Token → Outcome PublicKey) : Outcome Token :=
  match env.parseUnverified tokenString with
  | Except.error err => Outcome.error err
  | Except.ok token =>
    match keyfunc token with
    | Outcome.panic r => Outcome.panic r
    | Outcome.error err =>
      Outcome.error ("token is unverifiable: error while executing keyfunc: " ++ err)
    | Outcome.ok key =>
      match env.verifySignature token key with
      | some err => Outcome.error err
      | none =>
        match env.validateRegistered token with
        | some err => Outcome.error err
        | none => Outcome.ok { token with Valid := true }

/-- Go `verifyAccessToken`. -/
def verifyAccessToken (env : AuthEnv) (accessToken : String) :
    Outcome AccessTokenAzureClaims × List Event :=
  let keySet := env.fetchKeys MicrosoftEntraIDCommonPublicKeysEndpoint
  let trace := [Event.jwkFetch MicrosoftEntraIDCommonPublicKeysEndpoint]
  match ParseWithClaims env accessToken (keyFunc keySet) with
  | Outcome.panic r => (Outcome.panic r, trace)
  | Outcome.error err => (Outcome.error err, trace)
  | Outcome.ok token =>
    if !token.Valid then (Outcome.error "the access token provided is invalid", trace)
    else
      match validateClaim token.Claims.AppID "AppID" with
      | some err => (Outcome.error err, trace)
      | none =>
        match validateClaim token.Claims.TenantID "TenantID" with
        | some err => (Outcome.error err, trace)
        | none => (Outcome.ok token.Claims, trace)

/-- Go `newServicePrincipalToken`. -/
def newServicePrincipalToken (env : AuthEnv) (sptParameters : ServicePrincipalTokenParameters)
    (tokenGrantFlow : OAuthTokenGrantFlow) : Except Error ServicePrincipalToken × List Event :=
  let endpoint := sptParameters.AzureEnvironment.ActiveDirectoryEndpoint
  let trace := [Event.newOAuthConfig endpoint sptParameters.TenantID]
  match env.newOAuthConfigError endpoint sptParameters.TenantID with
  | some err => (Except.error ("error building oauth config: " ++ err), trace)
  | none =>
    let oauthConfig : OAuthConfig :=
      { AuthorityEndpoint := endpoint, TenantID := sptParameters.TenantID }
    match tokenGrantFlow with
    | OAuthTokenGrantFlow.ClientCredentials =>
      let resource := sptParameters.AzureEnvironment.ResourceManagerEndpoint
      (match env.newServicePrincipalTokenError oauthConfig sptParameters.ClientID
          sptParameters.ClientSecret resource with
        | some err => Except.error err
        | none => Except.ok (ServicePrincipalToken.fromClientCredentials oauthConfig
            sptParameters.ClientID sptParameters.ClientSecret resource),
       trace ++ [Event.newServicePrincipalToken oauthConfig sptParameters.ClientID
          sptParameters.ClientSecret resource])
    | _ =>
      (match env.newManualTokenError oauthConfig sptParameters.ClientID
          sptParameters.Resource sptParameters.Token with
        | some err => Except.error err
        | none => Except.ok (ServicePrincipalToken.fromManualToken oauthConfig
            sptParameters.ClientID sptParameters.Resource sptParameters.Token),
       trace ++ [Event.newServicePrincipalTokenFromManualToken oauthConfig
          sptParameters.ClientID sptParameters.Resource sptParameters.Token])

/-- Go `int64` subtraction: the difference wraps around at 64 bits. -/
def subInt64 (a b : Int) : Int := (a - b + 2 ^ 63) % 2 ^ 64 - 2 ^ 63

/-- The parameters `GetBearerTokenAuthorizer` holds after a verified pre-issued token: the
claims replace the configured client and tenant, the first audience entry becomes the
resource, and the token is wrapped with its lifetime.  Reading `Unix()` through a nil
`NotBefore` or `ExpiresAt` pointer panics. -/
def preIssuedParameters (sptParameters : ServicePrincipalTokenParameters)
    (accessToken : String) (claims : AccessTokenAzureClaims) :
    Outcome ServicePrincipalTokenParameters :=
  let p1 := { sptParameters with ClientID := claims.AppID, TenantID := claims.TenantID }
  let p2 :=
    match claims.Registered.Audience with
    | [] => p1
    | aud :: _ => { p1 with Resource := aud }
  match claims.Registered.NotBefore with
  | none => Outcome.panic "invalid memory address or nil pointer dereference"
  | some notBefore =>
    match claims.Registered.ExpiresAt with
    | none => Outcome.panic "invalid memory address or nil pointer dereference"
    | some expiresOn =>
      let oauthToken : AdalToken :=
        { AccessToken := accessToken,
          ExpiresIn := toString (subInt64 expiresOn notBefore),
          ExpiresOn := toString expiresOn,
          NotBefore := toString notBefore,
          Resource := p2.Resource,
          Type_ := TokenType }
      Outcome.ok { p2 with Token := oauthToken }

/-- The tail of `GetBearerTokenAuthorizer`: build the token provider for the chosen flow and
wrap it in the authorizer. -/
def finishAuthorizer (env : AuthEnv) (sptParameters : ServicePrincipalTokenParameters)
    (grantFlow : OAuthTokenGrantFlow) : Outcome BearerAuthorizer × List Event :=
  match newServicePrincipalToken env sptParameters grantFlow with
  | (Except.error err, trace) =>
    (Outcome.error ("error getting service principal token: " ++ err), trace)
  | (Except.ok spt, trace) => (Outcome.ok { tokenProvider := spt }, trace)

/-- Go `GetBearerTokenAuthorizer`. -/
def GetBearerTokenAuthorizer (env : AuthEnv) (azureEnvironment : Environment)
    (tenantID clientID clientSecret accessToken : String) :
    Outcome BearerAuthorizer × List Event :=
  let sptParameters : ServicePrincipalTokenParameters :=
    { AzureEnvironment := azureEnvironment, TenantID := tenantID, ClientID := clientID,
      ClientSecret := clientSecret, Resource := "", Token := AdalToken.zero }
  if !isBlank accessToken then
    let called := Event.verifyAccessToken accessToken
    match verifyAccessToken env accessToken with
    | (Outcome.panic r, trace) => (Outcome.panic r, called :: trace)
    | (Outcome.error err, trace) => (Outcome.error err, called :: trace)
    | (Outcome.ok claims, trace) =>
      match preIssuedParameters sptParameters accessToken claims with
      | Outcome.panic r => (Outcome.panic r, called :: trace)
      | Outcome.error err => (Outcome.error err, called :: trace)
      | Outcome.ok params =>
        let (res, trace2) := finishAuthorizer env params OAuthTokenGrantFlow.Undefined
        (res, called :: trace ++ trace2)
  else
    finishAuthorizer env sptParameters OAuthTokenGrantFlow.ClientCredentials

/-! ## install.go: the run -/

/-- Go struct `Config`. -/
structure Config where
  Environment : Environment
  SubscriptionID : String
  TenantID : String
  ClientID : String
  ClientSecret : String
  AccessToken : String
  Microsoft_StatusDBConnectionString : String

/-- Everything outside the process that a run of `Install` meets. -/
structure World where
  /-- The loaded configuration `m.cfg`. -/
  cfg : Config
  /-- What `io.ReadAll` gets from the input stream. -/
  stdin : Except Error String
  /-- Library call `yaml.Unmarshal` into an `InstallAction`. -/
  unmarshal : String → Except Error InstallAction
  /-- The collaborators of the auth package. -/
  auth : AuthEnv
  /-- The error of opening a file of the bundle, if any. -/
  fsOpen : String → Option Error
  /-- The contents `io.ReadAll` gets from an opened file. -/
  readAll : String → Except Error String
  /-- The provisioning call `Deploy(name, resourceGroup, location, template, parameters)`. -/
  deploy : String → String → String → String → Option Entries → Except Error (Option Entries)
  /-- Library call `strings.ToUpper`. -/
  toUpper : String → String
  /-- Library call `json.Marshal` on the output map. -/
  jsonMarshal : Entries → Except Error String
  /-- The error of `WriteMixinOutputToFile(name, contents)`, if any. -/
  writeMixinOutputToFile : String → String → Option Error
  /-- The error of `mongo.Connect` on a connection string, if any. -/
  mongoConnect : String → Option Error
  /-- The error of `client.Ping`, if any. -/
  mongoPing : String → Option Error
  /-- The error of the driver call `ReplaceOne` for a status, if any. -/
  replaceOneError : Status → Option Error
  /-- The documents of the status collection before the run. -/
  collection : Collection
  /-- The clock reading of `time.Now()`. -/
  now : Nat

/-- Go `getPayloadData` of arm.go: `errors.Wrap` keeps a nil error nil. -/
def getPayloadData (stdin : Except Error String) : String × Option Error :=
  match stdin with
  | Except.ok data => (data, none)
  | Except.error err => ("", some ("could not read the payload from STDIN: " ++ err))

/-- Go `getCorrelationId`.  The map is shared with the caller, so the arguments are returned
with the key deleted.  The unchecked assertion `.(string)` panics on any other value. -/
def getCorrelationId (installArguments : InstallArguments) (correlationId : String) :
    Outcome (String × InstallArguments) × List Event :=
  match mapGet installArguments.Parameters "correlationId" with
  | none =>
    (Outcome.ok (correlationId, installArguments),
     [Event.out "correlationId is missing in parameters.\n"])
  | some v =>
    match v.asString with
    | none => (Outcome.panic "interface conversion: interface is not string", [])
    | some cid =>
      (Outcome.ok (cid, { installArguments with
          Parameters := installArguments.Parameters.map (deleteKey "correlationId") }), [])

/-- One round of the first loop of `processArmOutput`, at the entry `kv` of the map `m`:
`newKey := strings.ToUpper(k); outputs[newKey] = v`. -/
def upperStep (toUpper : String → String) (m : Entries) (kv : String × Value) : Entries :=
  match lookup kv.1 m with
  | some v => setKey (toUpper kv.1) v m
  | none => m

/-- The first loop of `processArmOutput`: for every key `k` of the map, in iteration order,
`outputs[strings.ToUpper(k)] = v`.  The keys are those the map had when the loop began; an
entry added by the loop has an upper-case key, so a visit of it would change nothing. -/
def upperKeys (toUpper : String → String) (outputs : Entries) : Entries :=
  outputs.foldl (upperStep toUpper) outputs

/-- The second loop of `processArmOutput`: `none` is the early `return ""`. -/
def collectOutputs (toUpper : String → String) (outputs : Entries) :
    List AzureOutput → Entries → Option Entries
  | [], outputMap => some outputMap
  | output :: rest, outputMap =>
    match lookup (toUpper output.Key) outputs with
    | none => none
    | some v => collectOutputs toUpper outputs rest (setKey output.Key v outputMap)

/-- Go `processArmOutput`; a nil `outputs` map has no key to range over. -/
def processArmOutput (w : World) (outputs : Option Entries)
    (installArguments : InstallArguments) (correlationId : String) : String × List Event :=
  let outputs1 := upperKeys w.toUpper (outputs.getD [])
  match collectOutputs w.toUpper outputs1 installArguments.Outputs [] with
  | none => ("", [])
  | some outputMap =>
    match w.jsonMarshal outputMap with
    | Except.error _ =>
      ("", [Event.out ("[correlationId : " ++ correlationId ++ "] Output : " ++ "" ++ "\n")])
    | Except.ok jsonString =>
      let trace :=
        [Event.out ("[correlationId : " ++ correlationId ++ "] Output : " ++ jsonString ++ "\n"),
         Event.writeFile "output.json" jsonString]
      match w.writeMixinOutputToFile "output.json" jsonString with
      | some _ => (jsonString, trace)
      | none => (jsonString, trace)

/-- Go struct `db.StatusRepository`, by the database and collection it points at. -/
structure StatusRepository where
  DatabaseName : String
  CollectionName : String
deriving DecidableEq, Repr

/-- Go struct `db.MongoClientHelper`, by the connection string of its client. -/
structure MongoClientHelper where
  uri : String
deriving DecidableEq, Repr

/-- Go `db.NewMongoClientHelper`: connect, then ping. -/
def NewMongoClientHelper (w : World) (connectionString : String) :
    Except Error MongoClientHelper × List Event :=
  match w.mongoConnect connectionString with
  | some err => (Except.error err, [Event.mongoConnect connectionString])
  | none =>
    match w.mongoPing connectionString with
    | some err =>
      (Except.error err, [Event.mongoConnect connectionString, Event.mongoPing connectionString])
    | none =>
      (Except.ok { uri := connectionString },
       [Event.mongoConnect connectionString, Event.mongoPing connectionString])

/-- Go `createMongoRepository`: helper, repository (both nil on error) and error. -/
def createMongoRepository (w : World) (connectionStr databaseName collectionName : String) :
    (Option MongoClientHelper × Option StatusRepository × Option Error) × List Event :=
  if connectionStr = "" then ((none, none, some "connection string is required"), [])
  else
    match NewMongoClientHelper w connectionStr with
    | (Except.error err, trace) => ((none, none, some err), trace)
    | (Except.ok mongoClientHelper, trace) =>
      ((some mongoClientHelper,
        some { DatabaseName := databaseName, CollectionName := collectionName }, none), trace)

/-- The record `updateStatus` builds. -/
def buildStatus (now : Nat) (statusValue : String) (installArguments : InstallArguments)
    (correlationId output subscriptionId : String) : Status :=
  { Id := "",
    SubscriptionId := subscriptionId,
    ResourceGroupName := installArguments.ResourceGroup,
    ResourceName := "",
    ItemName := "arm template",
    ItemType := "arm",
    InstallationName := installArguments.Template,
    InstallationNameSpace := "",
    MixInName := "arm",
    IsActive := true,
    ExecutionStatus := statusValue,
    StatusReportedOn := now,
    CorrelationId := correlationId,
    PorterCorrelationId := correlationId,
    CnabRevision := "",
    Output := output }

/-- Go `updateStatus`: nothing happens without a repository; the error of the write is only
logged. -/
def updateStatus (w : World) (repository : Option StatusRepository) (coll : Collection)
    (statusValue : String) (installArguments : InstallArguments)
    (correlationId output subscriptionId : String) : Collection × List Event :=
  match repository with
  | none => (coll, [])
  | some _ =>
    let status := buildStatus w.now statusValue installArguments correlationId output
      subscriptionId
    match RecordStatus (w.replaceOneError status) coll status with
    | (coll', some _) =>
      (coll', [Event.recordStatus status,
        Event.out ("[correlationId : " ++ correlationId ++ "] Error while updating status\n")])
    | (coll', none) => (coll', [Event.recordStatus status])

/-- Go `getARMDeployer` of arm.go: the deployer is built around the authorizer; the polling
duration the caller passes only configures the deployments client. -/
def getARMDeployer (w : World) : Outcome BearerAuthorizer × List Event :=
  match GetBearerTokenAuthorizer w.auth w.cfg.Environment w.cfg.TenantID w.cfg.ClientID
      w.cfg.ClientSecret w.cfg.AccessToken with
  | (Outcome.error err, trace) =>
    (Outcome.error ("couldn\x27t build ARM deployer: " ++ err), trace)
  | other => other

/-- Go `FindTemplate` of templates/template.go. -/
def FindTemplate (w : World) (template : String) : Except Error String × List Event :=
  let templ := "/cnab/app/" ++ template
  match w.fsOpen templ with
  | some err =>
    (Except.error ("couldn\x27t find template " ++ template ++ ": " ++ err), [Event.fsOpen templ])
  | none => (w.readAll templ, [Event.fsOpen templ])

/-- What `Install` holds when it reaches the status store: the arguments (the correlation id
already taken out of the parameters), the correlation id and the template. -/
structure Prepared where
  installArguments : InstallArguments
  correlationId : String
  template : String

/-- The result of a run of `Install`: how it ended (`ok ()` is the nil error), the calls it
made, and the status collection afterwards. -/
structure Run where
  result : Outcome Unit
  trace : List Event
  collection : Collection

/-- Go `Install`, first half (up to `FindTemplate`): read, parse and validate the payload,
take the correlation id, build the deployer, find the template. -/
def prepare (w : World) : Outcome Prepared × List Event :=
  match getPayloadData w.stdin with
  | (_, some err) => (Outcome.error err, [])
  | (payload, none) =>
    match parseInstallAction w.unmarshal payload with
    | (_, some err) => (Outcome.error err, [])
    | (parsed, none) =>
      match validateInstallArguments parsed with
      | some err => (Outcome.error err, [])
      | none =>
        match getCorrelationId parsed "" with
        | (Outcome.panic r, t1) => (Outcome.panic r, t1)
        | (Outcome.error err, t1) => (Outcome.error err, t1)
        | (Outcome.ok (correlationId, installArguments), t1) =>
          match getARMDeployer w with
          | (Outcome.panic r, t2) => (Outcome.panic r, t1 ++ t2)
          | (Outcome.error err, t2) => (Outcome.error err, t1 ++ t2)
          | (Outcome.ok _, t2) =>
            match FindTemplate w installArguments.Template with
            | (Except.error err, t3) => (Outcome.error err, t1 ++ t2 ++ t3)
            | (Except.ok template, t3) =>
              (Outcome.ok { installArguments := installArguments,
                            correlationId := correlationId, template := template },
               t1 ++ t2 ++ t3)

/-- Go `Install`, second half (from `createMongoRepository` on): open the status store,
deploy, and record the outcome. -/
def deployAndRecord (w : World) (p : Prepared) : Run :=
  let installArguments := p.installArguments
  let correlationId := p.correlationId
  match createMongoRepository w w.cfg.Microsoft_StatusDBConnectionString
      (getDatabaseName installArguments) (getCollectionName installArguments) with
  | ((mongoClientHelper, repository, err), t4) =>
    let t5 :=
      (match err with
        | some _ => [Event.out ("[correlationId : " ++ correlationId ++
            "] Microsoft_StatusDBConnectionString is empty/invalid\n")]
        | none => []) ++
      [Event.out ("[correlationId: " ++ correlationId ++ "] Starting deployment operations...\n"),
       Event.out ("[correlationId: " ++ correlationId ++ "] Template location " ++
          installArguments.Template ++ "...\n")]
    match (mapIndex installArguments.Parameters "location").asString with
    | none =>
      { result := Outcome.panic "interface conversion: interface is not string",
        trace := t4 ++ t5, collection := w.collection }
    | some location =>
      let called := Event.deploy installArguments.Name installArguments.ResourceGroup location
        p.template installArguments.Parameters
      match w.deploy installArguments.Name installArguments.ResourceGroup location p.template
          installArguments.Parameters with
      | Except.error err =>
        match updateStatus w repository w.collection "Failed" installArguments correlationId
            err w.cfg.SubscriptionID with
        | (coll, t6) =>
          { result := Outcome.error err, trace := t4 ++ t5 ++ [called] ++ t6, collection := coll }
      | Except.ok outputs =>
        let t7 := [Event.out ("[correlationId: " ++ correlationId ++
          "] Finished deployment operations...\n")]
        match processArmOutput w outputs installArguments correlationId with
        | (outputStr, t8) =>
          match updateStatus w repository w.collection "Succeeded" installArguments
              correlationId outputStr w.cfg.SubscriptionID with
          | (coll, t9) =>
            let trace := t4 ++ t5 ++ [called] ++ t7 ++ t8 ++ t9
            match repository, mongoClientHelper with
            | none, _ => { result := Outcome.ok (), trace := trace, collection := coll }
            | some _, some _ =>
              { result := Outcome.ok (), trace := trace ++ [Event.disconnectMongoClient],
                collection := coll }
            | some _, none =>
              { result := Outcome.panic "invalid memory address or nil pointer dereference",
                trace := trace, collection := coll }

/-- Go `Install`. -/
def Install (w : World) : Run :=
  match prepare w with
  | (Outcome.panic r, t) => { result := Outcome.panic r, trace := t, collection := w.collection }
  | (Outcome.error err, t) =>
    { result := Outcome.error err, trace := t, collection := w.collection }
  | (Outcome.ok p, t) =>
    let run := deployAndRecord w p
    { run with trace := t ++ run.trace }

/-! ## Reading a trace -/

/-- The status records a run handed to `RecordStatus`, in order. -/
def recordedStatuses : List Event → List Status
  | [] => []
  | Event.recordStatus status :: rest => status :: recordedStatuses rest
  | _ :: rest => recordedStatuses rest

/-- The event is a call of `DisconnectMongoClient`. -/
def Event.isDisconnect : Event → Bool
  | Event.disconnectMongoClient => true
  | _ => false

/-- The event is a call of `mongo.Connect`. -/
def Event.isMongoConnect : Event → Bool
  | Event.mongoConnect _ => true
  | _ => false

/-- The event is a write of the output file. -/
def Event.isWriteFile : Event → Bool
  | Event.writeFile _ _ => true
  | _ => false

/-- The status store was opened: a connection string is set, and connect and ping succeed. -/
def storeOpened (w : World) : Bool :=
  decide (w.cfg.Microsoft_StatusDBConnectionString ≠ "") &&
  (w.mongoConnect w.cfg.Microsoft_StatusDBConnectionString).isNone &&
  (w.mongoPing w.cfg.Microsoft_StatusDBConnectionString).isNone

/-! ## Concrete collaborators for the examples -/

/-- Upper-case an ASCII letter, as `strings.ToUpper` does on ASCII text. -/
def upperChar (c : Char) : Char :=
  if 97 ≤ c.toNat ∧ c.toNat ≤ 122 then Char.ofNat (c.toNat - 32) else c

/-- The function `strings.ToUpper` on ASCII text. -/
def asciiUpper (s : String) : String := ⟨s.data.map upperChar⟩

/-- A character of a JSON string literal as `encoding/json` writes it, for printable ASCII
text: the quote and the backslash are escaped, and the HTML characters are written as
`\u00XX`. -/
def jsonChar (c : Char) : List Char :=
  if c = '"' then ['\\', '"']
  else if c = '\\' then ['\\', '\\']
  else if c = '<' then "\\u003c".data
  else if c = '>' then "\\u003e".data
  else if c = '&' then "\\u0026".data
  else [c]

/-- A JSON string literal. -/
def jsonString (s : String) : String := "\"" ++ String.mk (s.data.flatMap jsonChar) ++ "\""

mutual
/-- The text `encoding/json` produces for a value: object keys sorted, no white space. -/
def jsonValue : Value → String
  | Value.null => "null"
  | Value.bool b => if b then "true" else "false"
  | Value.int n => toString n
  | Value.str s => jsonString s
  | Value.list xs => "[" ++ ",".intercalate (jsonList xs) ++ "]"
  | Value.obj kv =>
    "\x7b" ++ ",".intercalate ((sortByKey (jsonEntries kv)).map (fun e => e.1 ++ ":" ++ e.2)) ++
      "\x7d"
/-- The elements of a JSON array. -/
def jsonList : List Value → List String
  | [] => []
  | x :: xs => jsonValue x :: jsonList xs
/-- The members of a JSON object, keys already quoted. -/
def jsonEntries : List (String × Value) → List (String × String)
  | [] => []
  | (k, v) :: rest => (jsonString k, jsonValue v) :: jsonEntries rest
end

/-- The call `json.Marshal(outputMap)` on a map of such values; it cannot fail on them. -/
def jsonMarshalMap (m : Entries) : Except Error String := Except.ok (jsonValue (Value.obj m))

/-- The request of the end-to-end scenario of the specification. -/
def sampleArguments : InstallArguments :=
  { Description := "Create Azure MySQL",
    Outputs := [{ Name := "HOST", Key := "MYHOST" }],
    Template := "t.json", Name := "d1", ResourceGroup := "rg1",
    Parameters := some [("location", Value.str "eastus"), ("correlationId", Value.str "c1")],
    Settings := none }

/-- A YAML decoder that knows one payload. -/
def sampleUnmarshal (payload : String) : Except Error InstallAction :=
  if payload = "install: [arm: ...]" then Except.ok { Steps := [sampleArguments] }
  else Except.error "yaml: unmarshal errors"

/-- A token the sample library accepts: RS256, key id "k1", claims of the app "app-1" in the
tenant "tenant-1". -/
def sampleToken : Token :=
  { Method := "RS256",
    Header := [("alg", Value.str "RS256"), ("kid", Value.str "k1"), ("typ", Value.str "JWT")],
    Claims := { AppID := "app-1", TenantID := "tenant-1",
                Registered := { Audience := ["https://management.azure.com/"],
                                NotBefore := some 1700000000, ExpiresAt := some 1700003599 } },
    Valid := false }

/-- Auth collaborators that know one token text and one key, and never fail otherwise. -/
def sampleAuth : AuthEnv :=
  { fetchKeys := fun _ => some [{ KeyID := "k1", Raw := Except.ok 7 }],
    parseUnverified := fun s =>
      if s = "header.payload.signature" then Except.ok sampleToken
      else Except.error "token is malformed: token contains an invalid number of segments",
    verifySignature := fun _ key =>
      if key = 7 then none else some "token signature is invalid",
    validateRegistered := fun _ => none,
    newOAuthConfigError := fun _ _ => none,
    newServicePrincipalTokenError := fun _ _ _ _ => none,
    newManualTokenError := fun _ _ _ _ => none }

/-- The world of the end-to-end scenario: client credentials, no status store, a deployment
that succeeds with the raw output "myHost". -/
def sampleWorld : World :=
  { cfg := { Environment := { ActiveDirectoryEndpoint := "https://login.microsoftonline.com/",
                              ResourceManagerEndpoint := "https://management.azure.com/" },
             SubscriptionID := "sub-1", TenantID := "tenant-0", ClientID := "client-0",
             ClientSecret := "secret-0", AccessToken := "",
             Microsoft_StatusDBConnectionString := "" },
    stdin := Except.ok "install: [arm: ...]",
    unmarshal := sampleUnmarshal,
    auth := sampleAuth,
    fsOpen := fun _ => none,
    readAll := fun _ => Except.ok "template",
    deploy := fun _ _ _ _ _ => Except.ok (some [("myHost", Value.str "10.0.0.1")]),
    toUpper := asciiUpper,
    jsonMarshal := jsonMarshalMap,
    writeMixinOutputToFile := fun _ _ => none,
    mongoConnect := fun _ => none,
    mongoPing := fun _ => none,
    replaceOneError := fun _ => none,
    collection := [],
    now := 1700000100 }

/-- The event belongs to the second half of `Install`: the status store, the deployment or
the output file. -/
def Event.isLate : Event → Bool
  | Event.mongoConnect _ => true
  | Event.mongoPing _ => true
  | Event.deploy _ _ _ _ _ => true
  | Event.writeFile _ _ => true
  | Event.recordStatus _ => true
  | Event.disconnectMongoClient => true
  | _ => false

/-- The same run against another status store: another connection string, other outcomes
of connect, ping and write, other documents in the collection. -/
def withStore (w : World) (connectionStr : String)
    (mongoConnect mongoPing : String → Option Error)
    (replaceOneError : Status → Option Error) (collection : Collection) : World :=
  { w with
    cfg := { w.cfg with Microsoft_StatusDBConnectionString := connectionStr },
    mongoConnect := mongoConnect, mongoPing := mongoPing,
    replaceOneError := replaceOneError, collection := collection }

/-- The end-to-end scenario with a status store that is reachable and empty. -/
def storeWorld : World :=
  withStore sampleWorld "mongodb://status" (fun _ => none) (fun _ => none) (fun _ => none) []

/-- The failure scenario: the status store is reachable and the deployment is refused. -/
def failingWorld : World :=
  { storeWorld with deploy := fun _ _ _ _ _ => Except.error "deployment failed: quota exceeded" }

/-- The gap scenario: the deployment succeeds but its outputs lack the declared key. -/
def gapWorld : World :=
  { storeWorld with deploy := fun _ _ _ _ _ => Except.ok (some [("other", Value.str "x")]) }

/-- What the first half of `Install` hands on in the sample scenarios. -/
def samplePrepared : Prepared :=
  { installArguments :=
      { sampleArguments with Parameters := some [("location", Value.str "eastus")] },
    correlationId := "c1",
    template := "template" }

/-- A token signed with HS256. -/
def hs256Token : Token :=
  { sampleToken with
    Method := "HS256",
    Header := [("alg", Value.str "HS256"), ("kid", Value.str "k1"), ("typ", Value.str "JWT")] }

/-- Auth collaborators whose library decodes every token text to the HS256 token. -/
def hs256Auth : AuthEnv :=
  { sampleAuth with parseUnverified := fun _ => Except.ok hs256Token }

/-- Auth collaborators whose fetched key set lacks the key id "k1" of the sample token. -/
def unknownKeyAuth : AuthEnv :=
  { sampleAuth with fetchKeys := fun _ => some [{ KeyID := "k2", Raw := Except.ok 9 }] }

/-- The sample token with a tenant claim of white space only. -/
def blankTenantToken : Token :=
  { sampleToken with
    Claims := { sampleToken.Claims with TenantID := " \t" } }

/-- Auth collaborators whose library decodes every token text to the blank-tenant token. -/
def blankTenantAuth : AuthEnv :=
  { sampleAuth with parseUnverified := fun _ => Except.ok blankTenantToken }

/-- The parameter maps a run handed to `Deploy`, in order. -/
def deployParameters : List Event → List (Option Entries)
  | [] => []
  | Event.deploy _ _ _ _ parameters :: rest => parameters :: deployParameters rest
  | _ :: rest => deployParameters rest

/-- The arguments a run handed to `adal.NewServicePrincipalTokenFromManualToken`, in order:
the OAuth configuration, the client id, the resource and the token. -/
def manualTokenCalls : List Event → List (OAuthConfig × String × String × AdalToken)
  | [] => []
  | Event.newServicePrincipalTokenFromManualToken cfg clientID resource token :: rest =>
    (cfg, clientID, resource, token) :: manualTokenCalls rest
  | _ :: rest => manualTokenCalls rest

/-- The sample token without a not-before claim. -/
def noNbfToken : Token :=
  { sampleToken with
    Claims := { sampleToken.Claims with
      Registered := { sampleToken.Claims.Registered with NotBefore := none } } }

/-- Auth collaborators whose library decodes every token text to the token without a
not-before claim, and accepts it. -/
def noNbfAuth : AuthEnv :=
  { sampleAuth with parseUnverified := fun _ => Except.ok noNbfToken }

/-- The sample token without an expiry claim. -/
def noExpToken : Token :=
  { sampleToken with
    Claims := { sampleToken.Claims with
      Registered := { sampleToken.Claims.Registered with ExpiresAt := none } } }

/-- Auth collaborators whose library decodes every token text to the token without an expiry
claim, and accepts it. -/
def noExpAuth : AuthEnv :=
  { sampleAuth with parseUnverified := fun _ => Except.ok noExpToken }

/-- The request of the end-to-end scenario with a number under "correlationId", as the YAML
`correlationId: 42` decodes. -/
def numericCorrelationArguments : InstallArguments :=
  { sampleArguments with
    Parameters := some [("location", Value.str "eastus"), ("correlationId", Value.int 42)] }

/-- The world of the end-to-end scenario whose payload decodes to that request. -/
def numericCorrelationWorld : World :=
  { sampleWorld with
    unmarshal := fun _ => Except.ok { Steps := [numericCorrelationArguments] } }

/-! ## Maps: reading after writing -/

theorem lookup_setKey (k k' : String) (v : Value) (m : Entries) :
    lookup k (setKey k' v m) = if k' = k then some v else lookup k m := by
  induction m with
  | nil => simp [setKey, lookup]
  | cons e rest ih =>
    obtain ⟨k0, v0⟩ := e
    simp only [setKey]
    split_ifs with h0 h1 h1 <;> simp_all [lookup]

/-! ## C1: validation -/

/-- C1: `validateInstallArguments` returns an error exactly when the template, the name or
the resource group is empty, or the parameters hold no string under "location" (the map is
nil, the key is absent or null, or the value is not a string); the settings, the declared
outputs, the description and the other parameters play no part. -/
theorem validateInstallArguments_error_iff (a : InstallArguments) :
    validateInstallArguments a ≠ none ↔
      (a.Template = "" ∨ a.Name = "" ∨ a.ResourceGroup = "" ∨
        ¬ ∃ s, mapGet a.Parameters "location" = some (Value.str s)) := by
  unfold validateInstallArguments
  by_cases hT : a.Template = ""
  · simp [hT]
  by_cases hN : a.Name = ""
  · simp [hT, hN]
  by_cases hR : a.ResourceGroup = ""
  · simp [hT, hN, hR]
  simp only [hT, hN, hR, if_false, false_or]
  cases hP : a.Parameters with
  | none => simp [mapGet]
  | some es =>
    cases hL : lookup "location" es with
    | none => simp [mapIndex, mapGet, hL, Value.isNil]
    | some v =>
      cases v <;> simp [mapIndex, mapGet, hL, Value.isNil, Value.asString]

/-- C1, at the request of the end-to-end scenario: all four are present, no error. -/
theorem validateInstallArguments_error_iff_witness :
    validateInstallArguments sampleArguments = none := by
  have h := (validateInstallArguments_error_iff sampleArguments).not
  have h2 : ¬ (sampleArguments.Template = "" ∨ sampleArguments.Name = "" ∨
      sampleArguments.ResourceGroup = "" ∨
      ¬ ∃ s, mapGet sampleArguments.Parameters "location" = some (Value.str s)) := by
    simp [sampleArguments, mapGet, lookup]
  exact not_not.mp (h.mpr h2)

/-! ## C6: parsing -/

/-- C6: when the payload decodes to an install action, `parseInstallAction` returns the error
"expected a single step, but got n" if the action declares n ≠ 1 steps (zero, or more than
one), and returns the one step unchanged, with no error, if it declares exactly one. -/
theorem parseInstallAction_single_step (unmarshal : String → Except Error InstallAction)
    (payload : String) (action : InstallAction) (h : unmarshal payload = Except.ok action) :
    (action.Steps.length ≠ 1 →
      (parseInstallAction unmarshal payload).2 =
        some ("expected a single step, but got " ++ toString action.Steps.length)) ∧
    (∀ step, action.Steps = [step] → parseInstallAction unmarshal payload = (step, none)) := by
  unfold parseInstallAction
  rw [h]
  constructor
  · intro hlen
    rcases hs : action.Steps with _ | ⟨s1, _ | ⟨s2, rest⟩⟩
    · simp [hs]
    · simp [hs] at hlen
    · simp [hs]
  · intro step hs
    simp [hs]

/-- C6, at a payload with one step and at an action with two. -/
theorem parseInstallAction_single_step_witness :
    parseInstallAction sampleUnmarshal "install: [arm: ...]" = (sampleArguments, none) ∧
    (parseInstallAction (fun _ => Except.ok { Steps := [sampleArguments, sampleArguments] })
        "two steps").2 = some "expected a single step, but got 2" :=
  ⟨(parseInstallAction_single_step sampleUnmarshal "install: [arm: ...]"
      { Steps := [sampleArguments] } (by simp [sampleUnmarshal])).2 sampleArguments rfl,
   (parseInstallAction_single_step
      (fun _ => Except.ok { Steps := [sampleArguments, sampleArguments] }) "two steps"
      { Steps := [sampleArguments, sampleArguments] } rfl).1 (by decide)⟩

/-! ## The two loops of processArmOutput -/

theorem lookup_mem (k : String) (v : Value) (m : Entries) (h : lookup k m = some v) :
    (k, v) ∈ m := by
  induction m with
  | nil => simp [lookup] at h
  | cons e rest ih =>
    obtain ⟨k0, v0⟩ := e
    by_cases h0 : k0 = k
    · simp [lookup, h0] at h
      simp [h0, h]
    · simp [lookup, h0] at h
      simp [ih h]

theorem lookup_isSome_of_mem (e : String × Value) (m : Entries) (h : e ∈ m) :
    (lookup e.1 m).isSome = true := by
  induction m with
  | nil => simp at h
  | cons e0 rest ih =>
    obtain ⟨k0, v0⟩ := e0
    by_cases h0 : k0 = e.1
    · simp [lookup, h0]
    · have hne : e ≠ (k0, v0) := by
        intro heq
        apply h0
        rw [heq]
      have hmem : e ∈ rest := by
        rcases List.mem_cons.mp h with h1 | h1
        · exact absurd h1 hne
        · exact h1
      simp [lookup, h0, ih hmem]

/-- A round of the first loop keeps every key the map has. -/
theorem upperStep_keeps (toUpper : String → String) (m : Entries) (kv : String × Value)
    (K : String) (h : (lookup K m).isSome = true) :
    (lookup K (upperStep toUpper m kv)).isSome = true := by
  unfold upperStep
  cases hkv : lookup kv.1 m with
  | none => simpa using h
  | some v =>
    simp only [lookup_setKey]
    split_ifs <;> simp [h]

theorem upperFold_keeps (toUpper : String → String) (l : Entries) (m : Entries) (K : String)
    (h : (lookup K m).isSome = true) :
    (lookup K (l.foldl (upperStep toUpper) m)).isSome = true := by
  induction l generalizing m with
  | nil => simpa using h
  | cons kv rest ih =>
    simp only [List.foldl_cons]
    exact ih _ (upperStep_keeps toUpper m kv K h)

/-- After the first loop the upper-cased key of every visited entry is in the map. -/
theorem upperFold_adds (toUpper : String → String) (l : Entries) (m : Entries)
    (hl : ∀ kv ∈ l, (lookup kv.1 m).isSome = true) :
    ∀ kv ∈ l, (lookup (toUpper kv.1) (l.foldl (upperStep toUpper) m)).isSome = true := by
  induction l generalizing m with
  | nil => intro kv hkv; simp at hkv
  | cons kv0 rest ih =>
    intro kv hkv
    simp only [List.foldl_cons]
    rcases List.mem_cons.mp hkv with h1 | h1
    · subst h1
      apply upperFold_keeps
      have h0 := hl kv (List.mem_cons_self _ _)
      unfold upperStep
      cases hkv0 : lookup kv.1 m with
      | none => simp [hkv0] at h0
      | some v => simp [lookup_setKey]
    · apply ih
      · intro kv1 hkv1
        exact upperStep_keeps toUpper m kv0 kv1.1 (hl kv1 (List.mem_cons_of_mem _ hkv1))
      · exact h1

/-- Every value in the map during the first loop is the value of a raw output whose key
equals its key ignoring case. -/
theorem upperFold_origin (toUpper : String → String)
    (hidem : ∀ s, toUpper (toUpper s) = toUpper s) (raw l : Entries) (m : Entries)
    (hm : ∀ K v, lookup K m = some v → ∃ e ∈ raw, e.2 = v ∧ toUpper e.1 = toUpper K) :
    ∀ K v, lookup K (l.foldl (upperStep toUpper) m) = some v →
      ∃ e ∈ raw, e.2 = v ∧ toUpper e.1 = toUpper K := by
  induction l generalizing m with
  | nil => simpa using hm
  | cons kv rest ih =>
    simp only [List.foldl_cons]
    apply ih
    intro K v hK
    unfold upperStep at hK
    cases hkv : lookup kv.1 m with
    | none =>
      rw [hkv] at hK
      exact hm K v hK
    | some v0 =>
      rw [hkv] at hK
      simp only [lookup_setKey] at hK
      by_cases hup : toUpper kv.1 = K
      · simp only [hup, if_true, Option.some.injEq] at hK
        obtain ⟨e, he, hv, hk⟩ := hm kv.1 v0 hkv
        refine ⟨e, he, by rw [hv, hK], ?_⟩
        rw [hk, ← hup, hidem]
      · simp only [hup, if_false] at hK
        exact hm K v hK

theorem upperKeys_origin (toUpper : String → String)
    (hidem : ∀ s, toUpper (toUpper s) = toUpper s) (raw : Entries) (K : String) (v : Value)
    (h : lookup K (upperKeys toUpper raw) = some v) :
    ∃ e ∈ raw, e.2 = v ∧ toUpper e.1 = toUpper K := by
  unfold upperKeys at h
  refine upperFold_origin toUpper hidem raw raw raw ?_ K v h
  intro K0 v0 h0
  exact ⟨(K0, v0), lookup_mem K0 v0 raw h0, rfl, rfl⟩

/-- With no two raw keys equal ignoring case, the upper-cased key of a raw output reads its
value after the first loop. -/
theorem upperKeys_lookup (toUpper : String → String)
    (hidem : ∀ s, toUpper (toUpper s) = toUpper s) (raw : Entries)
    (huniq : ∀ e ∈ raw, ∀ e' ∈ raw, toUpper e.1 = toUpper e'.1 → e = e')
    (e : String × Value) (he : e ∈ raw) :
    lookup (toUpper e.1) (upperKeys toUpper raw) = some e.2 := by
  have hsome : (lookup (toUpper e.1) (upperKeys toUpper raw)).isSome = true := by
    unfold upperKeys
    exact upperFold_adds toUpper raw raw (fun kv hkv => lookup_isSome_of_mem kv raw hkv) e he
  obtain ⟨v, hv⟩ := Option.isSome_iff_exists.mp hsome
  obtain ⟨e', he', hv', hk'⟩ := upperKeys_origin toUpper hidem raw _ v hv
  rw [hidem] at hk'
  have := huniq e' he' e he hk'
  rw [hv, ← hv', this]

/-- A key that matches no raw key ignoring case is not in the map after the first loop. -/
theorem upperKeys_lookup_none (toUpper : String → String)
    (hidem : ∀ s, toUpper (toUpper s) = toUpper s) (raw : Entries) (key : String)
    (hno : ∀ e ∈ raw, toUpper e.1 ≠ toUpper key) :
    lookup (toUpper key) (upperKeys toUpper raw) = none := by
  cases h : lookup (toUpper key) (upperKeys toUpper raw) with
  | none => rfl
  | some v =>
    obtain ⟨e, he, _, hk⟩ := upperKeys_origin toUpper hidem raw _ v h
    rw [hidem] at hk
    exact absurd hk (hno e he)

/-- The second loop succeeds when every declared key is found, and then the output map reads,
under each declared key, what the upper-cased key reads in the raw map, and is otherwise as it
was. -/
theorem collectOutputs_some (toUpper : String → String) (outputs : Entries)
    (outs : List AzureOutput) (acc : Entries)
    (hall : ∀ o ∈ outs, (lookup (toUpper o.Key) outputs).isSome = true) :
    ∃ r, collectOutputs toUpper outputs outs acc = some r ∧
      (∀ o ∈ outs, lookup o.Key r = lookup (toUpper o.Key) outputs) ∧
      (∀ k, (∀ o ∈ outs, o.Key ≠ k) → lookup k r = lookup k acc) := by
  induction outs generalizing acc with
  | nil => exact ⟨acc, rfl, by simp, by simp⟩
  | cons o rest ih =>
    obtain ⟨v, hv⟩ := Option.isSome_iff_exists.mp (hall o (List.mem_cons_self _ _))
    obtain ⟨r, hr, hin, hout⟩ :=
      ih (setKey o.Key v acc) (fun o' ho' => hall o' (List.mem_cons_of_mem _ ho'))
    refine ⟨r, by simp [collectOutputs, hv, hr], ?_, ?_⟩
    · intro o' ho'
      by_cases hex : ∃ o2 ∈ rest, o2.Key = o'.Key
      · obtain ⟨o2, ho2, hk⟩ := hex
        rw [← hk]
        exact hin o2 ho2
      · have hnot : ∀ o2 ∈ rest, o2.Key ≠ o'.Key := fun o2 ho2 hk => hex ⟨o2, ho2, hk⟩
        rcases List.mem_cons.mp ho' with h1 | h1
        · rw [hout o'.Key hnot, lookup_setKey, h1]
          simp [hv]
        · exact absurd rfl (hnot o' h1)
    · intro k hk
      rw [hout k (fun o2 ho2 => hk o2 (List.mem_cons_of_mem _ ho2)), lookup_setKey]
      simp [hk o (List.mem_cons_self _ _)]

/-- The second loop returns early when a declared key is not found. -/
theorem collectOutputs_none (toUpper : String → String) (outputs : Entries)
    (outs : List AzureOutput) (acc : Entries)
    (hmiss : ∃ o ∈ outs, lookup (toUpper o.Key) outputs = none) :
    collectOutputs toUpper outputs outs acc = none := by
  induction outs generalizing acc with
  | nil =>
    obtain ⟨o, ho, _⟩ := hmiss
    simp at ho
  | cons o rest ih =>
    cases hv : lookup (toUpper o.Key) outputs with
    | none => simp [collectOutputs, hv]
    | some v =>
      simp only [collectOutputs, hv]
      apply ih
      obtain ⟨o', ho', hn⟩ := hmiss
      rcases List.mem_cons.mp ho' with h1 | h1
      · rw [h1, hv] at hn
        exact absurd hn (by simp)
      · exact ⟨o', h1, hn⟩

theorem upperChar_idem (c : Char) : upperChar (upperChar c) = upperChar c := by
  by_cases h : 97 ≤ c.toNat ∧ c.toNat ≤ 122
  · have hc : c = Char.ofNat c.toNat := (Char.ofNat_toNat c).symm
    obtain ⟨h1, h2⟩ := h
    generalize c.toNat = n at hc h1 h2
    subst hc
    interval_cases n <;> decide
  · simp [upperChar, h]

theorem asciiUpper_idem (s : String) : asciiUpper (asciiUpper s) = asciiUpper s := by
  have h : upperChar ∘ upperChar = upperChar := funext upperChar_idem
  simp [asciiUpper, h]

/-! ## C2: the outputs that are surfaced -/

/-- C2, as the claim states it, fails on its own example: for the raw outputs
{"myHost": "10.0.0.1"} and the declared output (key "MYHOST", name "HOST") `processArmOutput`
returns {"MYHOST":"10.0.0.1"}, not {"HOST":"10.0.0.1"}. -/
theorem processArmOutput_ignores_name :
    (processArmOutput sampleWorld (some [("myHost", Value.str "10.0.0.1")])
        sampleArguments "c1").1 = "\x7b\"MYHOST\":\"10.0.0.1\"\x7d" ∧
    (processArmOutput sampleWorld (some [("myHost", Value.str "10.0.0.1")])
        sampleArguments "c1").1 ≠ "\x7b\"HOST\":\"10.0.0.1\"\x7d" ∧
    jsonMarshalMap [("HOST", Value.str "10.0.0.1")] =
      Except.ok "\x7b\"HOST\":\"10.0.0.1\"\x7d" := by
  refine ⟨by decide, by decide, rfl⟩

/-- C2, amended: when no two raw keys are equal ignoring case and every declared key matches
a raw key ignoring case, `processArmOutput` returns the JSON encoding of a map that holds,
under each declared output's key as declared (not its name), the value of the raw output that
key matches, and that holds nothing else. -/
theorem processArmOutput_maps_declared_keys (w : World)
    (hidem : ∀ s, w.toUpper (w.toUpper s) = w.toUpper s) (raw : Entries)
    (installArguments : InstallArguments) (correlationId : String)
    (huniq : ∀ e ∈ raw, ∀ e' ∈ raw, w.toUpper e.1 = w.toUpper e'.1 → e = e')
    (hall : ∀ o ∈ installArguments.Outputs, ∃ e ∈ raw, w.toUpper e.1 = w.toUpper o.Key) :
    ∃ outputMap : Entries,
      (∀ o ∈ installArguments.Outputs, ∃ e ∈ raw,
        w.toUpper e.1 = w.toUpper o.Key ∧ lookup o.Key outputMap = some e.2) ∧
      (∀ k, (∀ o ∈ installArguments.Outputs, o.Key ≠ k) → lookup k outputMap = none) ∧
      (processArmOutput w (some raw) installArguments correlationId).1 =
        (match w.jsonMarshal outputMap with
          | Except.ok json => json
          | Except.error _ => "") := by
  have hfound : ∀ o ∈ installArguments.Outputs, ∀ e ∈ raw, w.toUpper e.1 = w.toUpper o.Key →
      lookup (w.toUpper o.Key) (upperKeys w.toUpper raw) = some e.2 := by
    intro o _ e he hk
    rw [← hk]
    exact upperKeys_lookup w.toUpper hidem raw huniq e he
  obtain ⟨r, hr, hin, hout⟩ := collectOutputs_some w.toUpper (upperKeys w.toUpper raw)
    installArguments.Outputs [] (by
      intro o ho
      obtain ⟨e, he, hk⟩ := hall o ho
      rw [hfound o ho e he hk]
      rfl)
  refine ⟨r, ?_, ?_, ?_⟩
  · intro o ho
    obtain ⟨e, he, hk⟩ := hall o ho
    exact ⟨e, he, hk, by rw [hin o ho, hfound o ho e he hk]⟩
  · intro k hk
    rw [hout k hk]
    rfl
  · simp only [processArmOutput, Option.getD_some, hr]
    cases w.jsonMarshal r with
    | error e => rfl
    | ok json =>
      dsimp only
      split <;> rfl

/-- C2 amended, at the example of the specification: the raw output "myHost" surfaces under
the declared key "MYHOST". -/
theorem processArmOutput_maps_declared_keys_witness :
    ∃ outputMap : Entries,
      (∀ o ∈ sampleArguments.Outputs, ∃ e ∈ [("myHost", Value.str "10.0.0.1")],
        sampleWorld.toUpper e.1 = sampleWorld.toUpper o.Key ∧
        lookup o.Key outputMap = some e.2) ∧
      (∀ k, (∀ o ∈ sampleArguments.Outputs, o.Key ≠ k) → lookup k outputMap = none) ∧
      (processArmOutput sampleWorld (some [("myHost", Value.str "10.0.0.1")])
          sampleArguments "c1").1 =
        (match sampleWorld.jsonMarshal outputMap with
          | Except.ok json => json
          | Except.error _ => "") :=
  processArmOutput_maps_declared_keys sampleWorld asciiUpper_idem
    [("myHost", Value.str "10.0.0.1")] sampleArguments "c1"
    (by
      intro e he e' he' _
      rw [List.mem_singleton.mp he, List.mem_singleton.mp he'])
    (by
      intro o ho
      have ho' : o = { Name := "HOST", Key := "MYHOST" } := by
        simpa [sampleArguments] using ho
      subst ho'
      exact ⟨("myHost", Value.str "10.0.0.1"), List.mem_singleton_self _, by decide⟩)

/-! ## Traces of the two halves of Install -/

theorem recordedStatuses_append (a b : List Event) :
    recordedStatuses (a ++ b) = recordedStatuses a ++ recordedStatuses b := by
  induction a with
  | nil => rfl
  | cons ev rest ih => cases ev <;> simp [recordedStatuses, ih]

theorem recordedStatuses_early (t : List Event) (h : t.all (fun ev => !ev.isLate) = true) :
    recordedStatuses t = [] := by
  induction t with
  | nil => rfl
  | cons ev rest ih =>
    simp only [List.all_cons, Bool.and_eq_true] at h
    cases ev <;> simp_all [recordedStatuses, Event.isLate]

theorem verifyAccessToken_trace (env : AuthEnv) (accessToken : String) :
    (verifyAccessToken env accessToken).2 =
      [Event.jwkFetch MicrosoftEntraIDCommonPublicKeysEndpoint] := by
  unfold verifyAccessToken
  dsimp only
  split <;> try rfl
  split <;> try rfl
  split <;> try rfl
  split <;> rfl

theorem newServicePrincipalToken_early (env : AuthEnv) (p : ServicePrincipalTokenParameters)
    (flow : OAuthTokenGrantFlow) :
    (newServicePrincipalToken env p flow).2.all (fun ev => !ev.isLate) = true := by
  unfold newServicePrincipalToken
  dsimp only
  split
  · rfl
  · split <;> rfl

theorem finishAuthorizer_trace (env : AuthEnv) (p : ServicePrincipalTokenParameters)
    (flow : OAuthTokenGrantFlow) :
    (finishAuthorizer env p flow).2 = (newServicePrincipalToken env p flow).2 := by
  unfold finishAuthorizer
  split <;> simp_all

theorem GetBearerTokenAuthorizer_early (env : AuthEnv) (az : Environment)
    (tenantID clientID clientSecret accessToken : String) :
    (GetBearerTokenAuthorizer env az tenantID clientID clientSecret accessToken).2.all
      (fun ev => !ev.isLate) = true := by
  unfold GetBearerTokenAuthorizer
  dsimp only
  split
  · have hv := verifyAccessToken_trace env accessToken
    split
    · rename_i r trace heq
      rw [heq] at hv
      simp at hv
      simp [hv, Event.isLate]
    · rename_i r trace heq
      rw [heq] at hv
      simp at hv
      simp [hv, Event.isLate]
    · rename_i r trace heq
      rw [heq] at hv
      simp at hv
      split
      · simp [hv, Event.isLate]
      · simp [hv, Event.isLate]
      · simp only [List.all_cons, List.all_append, finishAuthorizer_trace,
          newServicePrincipalToken_early, hv]
        simp [Event.isLate]
  · rw [finishAuthorizer_trace]
    exact newServicePrincipalToken_early _ _ _

theorem getCorrelationId_early (a : InstallArguments) (c : String) :
    (getCorrelationId a c).2.all (fun ev => !ev.isLate) = true := by
  unfold getCorrelationId
  split
  · rfl
  · split <;> rfl

theorem getARMDeployer_early (w : World) :
    (getARMDeployer w).2.all (fun ev => !ev.isLate) = true := by
  have h := GetBearerTokenAuthorizer_early w.auth w.cfg.Environment w.cfg.TenantID
    w.cfg.ClientID w.cfg.ClientSecret w.cfg.AccessToken
  unfold getARMDeployer
  split
  · rename_i err trace heq
    rw [heq] at h
    exact h
  · exact h

theorem FindTemplate_early (w : World) (template : String) :
    (FindTemplate w template).2.all (fun ev => !ev.isLate) = true := by
  unfold FindTemplate
  dsimp only
  split <;> rfl

/-- The first half of `Install` touches neither the status store nor the deployment. -/
theorem prepare_early (w : World) : (prepare w).2.all (fun ev => !ev.isLate) = true := by
  unfold prepare
  rcases hp : getPayloadData w.stdin with ⟨payload, _ | err⟩
  swap
  · rfl
  dsimp only
  rcases hq : parseInstallAction w.unmarshal payload with ⟨parsed, _ | err⟩
  swap
  · rfl
  dsimp only
  cases hv : validateInstallArguments parsed with
  | some err => rfl
  | none =>
    dsimp only
    have h1 := getCorrelationId_early parsed ""
    have h2 := getARMDeployer_early w
    rcases hc : getCorrelationId parsed "" with ⟨_ | _ | _, t1⟩
    · rename_i a
      obtain ⟨correlationId, installArguments⟩ := a
      dsimp only
      have h3 := FindTemplate_early w installArguments.Template
      rw [hc] at h1
      rcases hd : getARMDeployer w with ⟨_ | _ | _, t2⟩
      · rw [hd] at h2
        dsimp only
        rcases hf : FindTemplate w installArguments.Template with ⟨_ | _, t3⟩
        · rw [hf] at h3
          simp_all
        · rw [hf] at h3
          simp_all
      · rw [hd] at h2
        simp_all
      · rw [hd] at h2
        simp_all
    · rw [hc] at h1
      simpa using h1
    · rw [hc] at h1
      simpa using h1

theorem createMongoRepository_opened (w : World) (db coll : String)
    (h : storeOpened w = true) :
    createMongoRepository w w.cfg.Microsoft_StatusDBConnectionString db coll =
      ((some { uri := w.cfg.Microsoft_StatusDBConnectionString },
        some { DatabaseName := db, CollectionName := coll }, none),
       [Event.mongoConnect w.cfg.Microsoft_StatusDBConnectionString,
        Event.mongoPing w.cfg.Microsoft_StatusDBConnectionString]) := by
  simp only [storeOpened, Bool.and_eq_true, decide_eq_true_eq, Option.isNone_iff_eq_none] at h
  obtain ⟨⟨h1, h2⟩, h3⟩ := h
  simp [createMongoRepository, NewMongoClientHelper, h1, h2, h3]

theorem createMongoRepository_closed (w : World) (db coll : String)
    (h : storeOpened w = false) :
    ∃ err t, createMongoRepository w w.cfg.Microsoft_StatusDBConnectionString db coll =
      ((none, none, some err), t) ∧ recordedStatuses t = [] ∧
      t.any Event.isDisconnect = false ∧ t.any Event.isWriteFile = false := by
  unfold createMongoRepository NewMongoClientHelper
  by_cases h1 : w.cfg.Microsoft_StatusDBConnectionString = ""
  · exact ⟨"connection string is required", [], by simp [h1], rfl, rfl, rfl⟩
  · cases h2 : w.mongoConnect w.cfg.Microsoft_StatusDBConnectionString with
    | some e =>
      exact ⟨e, [Event.mongoConnect w.cfg.Microsoft_StatusDBConnectionString],
        by simp [h1, h2], rfl, rfl, rfl⟩
    | none =>
      cases h3 : w.mongoPing w.cfg.Microsoft_StatusDBConnectionString with
      | some e =>
        exact ⟨e, [Event.mongoConnect w.cfg.Microsoft_StatusDBConnectionString,
          Event.mongoPing w.cfg.Microsoft_StatusDBConnectionString],
          by simp [h1, h2, h3], rfl, rfl, rfl⟩
      | none => simp [storeOpened, h1, h2, h3] at h

theorem any_append_false (f : Event → Bool) (a b : List Event) (ha : a.any f = false)
    (hb : b.any f = false) : (a ++ b).any f = false := by
  simp [List.any_append, ha, hb]

/-- The second half of `Install` when the deployment fails. -/
theorem deployAndRecord_failed (w : World) (p : Prepared) (location : String) (e : Error)
    (hloc : (mapIndex p.installArguments.Parameters "location").asString = some location)
    (hdep : w.deploy p.installArguments.Name p.installArguments.ResourceGroup location
      p.template p.installArguments.Parameters = Except.error e) :
    (deployAndRecord w p).result = Outcome.error e ∧
    recordedStatuses (deployAndRecord w p).trace =
      (if storeOpened w then
        [buildStatus w.now "Failed" p.installArguments p.correlationId e w.cfg.SubscriptionID]
       else []) ∧
    (deployAndRecord w p).trace.any Event.isDisconnect = false := by
  cases hs : storeOpened w with
  | true =>
    unfold deployAndRecord
    simp only [createMongoRepository_opened w _ _ hs, hloc, hdep, updateStatus, RecordStatus]
    cases w.replaceOneError (buildStatus w.now "Failed" p.installArguments p.correlationId e
      w.cfg.SubscriptionID) <;>
      simp [recordedStatuses, Event.isDisconnect]
  | false =>
    obtain ⟨err, t, hc, h1, h2, h3⟩ := createMongoRepository_closed w
      (getDatabaseName p.installArguments) (getCollectionName p.installArguments) hs
    unfold deployAndRecord
    simp only [hc, hloc, hdep, updateStatus]
    simp [recordedStatuses_append, h1, h2, recordedStatuses, Event.isDisconnect]

theorem prepare_withStore (w : World) (c : String) (mc mp : String → Option Error)
    (re : Status → Option Error) (coll : Collection) :
    prepare (withStore w c mc mp re coll) = prepare w := rfl

theorem createMongoRepository_shape (w : World) (conn db coll : String) :
    (∃ h r t, createMongoRepository w conn db coll = ((some h, some r, none), t)) ∨
    (∃ err t, createMongoRepository w conn db coll = ((none, none, some err), t)) := by
  unfold createMongoRepository NewMongoClientHelper
  by_cases h1 : conn = ""
  · right
    exact ⟨"connection string is required", [], by simp [h1]⟩
  · cases h2 : w.mongoConnect conn with
    | some e => right; exact ⟨e, [Event.mongoConnect conn], by simp [h1, h2]⟩
    | none =>
      cases h3 : w.mongoPing conn with
      | some e =>
        right; exact ⟨e, [Event.mongoConnect conn, Event.mongoPing conn], by simp [h1, h2, h3]⟩
      | none =>
        left
        exact ⟨{ uri := conn }, { DatabaseName := db, CollectionName := coll },
          [Event.mongoConnect conn, Event.mongoPing conn], by simp [h1, h2, h3]⟩

/-- How the second half of `Install` ends is decided by the location and the deployment
alone. -/
theorem deployAndRecord_result (w : World) (p : Prepared) :
    (deployAndRecord w p).result =
      (match (mapIndex p.installArguments.Parameters "location").asString with
        | none => Outcome.panic "interface conversion: interface is not string"
        | some location =>
          match w.deploy p.installArguments.Name p.installArguments.ResourceGroup location
              p.template p.installArguments.Parameters with
          | Except.error e => Outcome.error e
          | Except.ok _ => Outcome.ok ()) := by
  unfold deployAndRecord
  rcases createMongoRepository_shape w w.cfg.Microsoft_StatusDBConnectionString
    (getDatabaseName p.installArguments) (getCollectionName p.installArguments) with
    ⟨h, r, t, hc⟩ | ⟨err, t, hc⟩
  all_goals
    simp only [hc]
    cases (mapIndex p.installArguments.Parameters "location").asString with
    | none => rfl
    | some location =>
      dsimp only
      cases w.deploy p.installArguments.Name p.installArguments.ResourceGroup location
        p.template p.installArguments.Parameters with
      | error e => rfl
      | ok outputs => rfl

theorem Install_result (w : World) :
    (Install w).result =
      (match prepare w with
        | (Outcome.panic r, _) => Outcome.panic r
        | (Outcome.error err, _) => Outcome.error err
        | (Outcome.ok p, _) => (deployAndRecord w p).result) := by
  unfold Install
  split <;> simp_all

theorem Install_of_prepare (w : World) (p : Prepared) (t : List Event)
    (h : prepare w = (Outcome.ok p, t)) :
    (Install w).result = (deployAndRecord w p).result ∧
    (Install w).trace = t ++ (deployAndRecord w p).trace ∧
    (Install w).collection = (deployAndRecord w p).collection := by
  unfold Install
  rw [h]
  exact ⟨rfl, rfl, rfl⟩

theorem Install_result_withStore (w : World) (c : String) (mc mp : String → Option Error)
    (re : Status → Option Error) (coll : Collection) :
    (Install (withStore w c mc mp re coll)).result = (Install w).result := by
  rw [Install_result, Install_result, prepare_withStore]
  rcases prepare w with ⟨_ | _ | _, t⟩
  · dsimp only
    rw [deployAndRecord_result, deployAndRecord_result]
    rfl
  · rfl
  · rfl

theorem early_facts (t : List Event) (h : t.all (fun ev => !ev.isLate) = true) :
    recordedStatuses t = [] ∧ t.any Event.isDisconnect = false ∧
    t.any Event.isWriteFile = false ∧ t.any Event.isMongoConnect = false := by
  induction t with
  | nil => exact ⟨rfl, rfl, rfl, rfl⟩
  | cons ev rest ih =>
    simp only [List.all_cons, Bool.and_eq_true] at h
    obtain ⟨h1, h2, h3, h4⟩ := ih h.2
    have h0 := h.1
    cases ev <;>
      simp_all [recordedStatuses, Event.isLate, Event.isDisconnect, Event.isWriteFile,
        Event.isMongoConnect]

theorem processArmOutput_trace (w : World) (outputs : Option Entries)
    (a : InstallArguments) (c : String) :
    recordedStatuses (processArmOutput w outputs a c).2 = [] ∧
    (processArmOutput w outputs a c).2.any Event.isDisconnect = false := by
  unfold processArmOutput
  dsimp only
  split
  · exact ⟨rfl, rfl⟩
  · split
    · exact ⟨rfl, rfl⟩
    · split <;> exact ⟨rfl, rfl⟩

/-- The second half of `Install` when the deployment succeeds. -/
theorem deployAndRecord_succeeded (w : World) (p : Prepared) (location : String)
    (outputs : Option Entries)
    (hloc : (mapIndex p.installArguments.Parameters "location").asString = some location)
    (hdep : w.deploy p.installArguments.Name p.installArguments.ResourceGroup location
      p.template p.installArguments.Parameters = Except.ok outputs) :
    (deployAndRecord w p).result = Outcome.ok () ∧
    recordedStatuses (deployAndRecord w p).trace =
      (if storeOpened w then
        [buildStatus w.now "Succeeded" p.installArguments p.correlationId
          (processArmOutput w outputs p.installArguments p.correlationId).1
          w.cfg.SubscriptionID]
       else []) ∧
    (deployAndRecord w p).trace.any Event.isDisconnect = storeOpened w ∧
    (deployAndRecord w p).trace.any Event.isWriteFile =
      (processArmOutput w outputs p.installArguments p.correlationId).2.any
        Event.isWriteFile := by
  obtain ⟨hp1, hp2⟩ := processArmOutput_trace w outputs p.installArguments p.correlationId
  rcases hpo : processArmOutput w outputs p.installArguments p.correlationId with
    ⟨outputStr, t8⟩
  rw [hpo] at hp1 hp2
  cases hs : storeOpened w with
  | true =>
    unfold deployAndRecord
    simp only [createMongoRepository_opened w _ _ hs, hloc, hdep, hpo, updateStatus,
      RecordStatus]
    cases w.replaceOneError (buildStatus w.now "Succeeded" p.installArguments p.correlationId
      outputStr w.cfg.SubscriptionID) <;>
      simp [recordedStatuses_append, recordedStatuses, Event.isDisconnect, Event.isWriteFile,
        hp1, hp2]
  | false =>
    obtain ⟨err, t, hc, h1, h2, h3⟩ := createMongoRepository_closed w
      (getDatabaseName p.installArguments) (getCollectionName p.installArguments) hs
    unfold deployAndRecord
    simp only [hc, hloc, hdep, hpo, updateStatus]
    simp [recordedStatuses_append, h1, h2, h3, hp1, hp2, recordedStatuses, Event.isDisconnect,
      Event.isWriteFile]

theorem getCorrelationId_ok (a a' : InstallArguments) (cid : String) (t : List Event)
    (h : getCorrelationId a "" = (Outcome.ok (cid, a'), t)) :
    (mapGet a.Parameters "correlationId" = none ∧ cid = "" ∧ a' = a) ∨
    (mapGet a.Parameters "correlationId" = some (Value.str cid) ∧
      a' = { a with Parameters := a.Parameters.map (deleteKey "correlationId") }) := by
  unfold getCorrelationId at h
  cases hg : mapGet a.Parameters "correlationId" with
  | none =>
    rw [hg] at h
    simp only [Prod.mk.injEq, Outcome.ok.injEq] at h
    left
    exact ⟨rfl, h.1.1.symm, h.1.2.symm⟩
  | some v =>
    rw [hg] at h
    cases v <;> simp [Value.asString] at h
    right
    obtain ⟨⟨h1, h2⟩, _⟩ := h
    exact ⟨by rw [h1], h2.symm⟩

/-- A run that reaches the status store has read, parsed and validated its request, and holds
the correlation id of that request. -/
theorem prepare_ok (w : World) (p : Prepared) (t : List Event)
    (h : prepare w = (Outcome.ok p, t)) :
    ∃ payload parsed t1, w.stdin = Except.ok payload ∧
      parseInstallAction w.unmarshal payload = (parsed, none) ∧
      validateInstallArguments parsed = none ∧
      getCorrelationId parsed "" = (Outcome.ok (p.correlationId, p.installArguments), t1) := by
  unfold prepare at h
  cases hin : w.stdin with
  | error e => simp [hin, getPayloadData] at h
  | ok payload =>
    simp only [hin, getPayloadData] at h
    rcases hq : parseInstallAction w.unmarshal payload with ⟨parsed, _ | err⟩
    swap
    · simp [hq] at h
    simp only [hq] at h
    cases hv : validateInstallArguments parsed with
    | some err => simp [hv] at h
    | none =>
      simp only [hv] at h
      rcases hc : getCorrelationId parsed "" with ⟨_ | _ | _, t1⟩
      · rename_i a
        obtain ⟨correlationId, installArguments⟩ := a
        simp only [hc] at h
        rcases hd : getARMDeployer w with ⟨_ | _ | _, t2⟩
        · simp only [hd] at h
          rcases hf : FindTemplate w installArguments.Template with ⟨_ | _, t3⟩
          · simp [hf] at h
          · simp only [hf, Prod.mk.injEq, Outcome.ok.injEq] at h
            obtain ⟨hp, _⟩ := h
            subst hp
            exact ⟨payload, parsed, t1, rfl, hq, hv, hc⟩
        · simp [hd] at h
        · simp [hd] at h
      · simp [hc] at h
      · simp [hc] at h

/-- The status collection after the second half of `Install`: untouched without an opened
store, and otherwise what `RecordStatus` leaves for the record of the outcome. -/
theorem deployAndRecord_collection (w : World) (p : Prepared) (location : String)
    (hloc : (mapIndex p.installArguments.Parameters "location").asString = some location) :
    (∀ e, w.deploy p.installArguments.Name p.installArguments.ResourceGroup location
        p.template p.installArguments.Parameters = Except.error e →
      (deployAndRecord w p).collection =
        (if storeOpened w then
          (RecordStatus
            (w.replaceOneError (buildStatus w.now "Failed" p.installArguments p.correlationId e
              w.cfg.SubscriptionID))
            w.collection
            (buildStatus w.now "Failed" p.installArguments p.correlationId e
              w.cfg.SubscriptionID)).1
         else w.collection)) ∧
    (∀ outputs, w.deploy p.installArguments.Name p.installArguments.ResourceGroup location
        p.template p.installArguments.Parameters = Except.ok outputs →
      (deployAndRecord w p).collection =
        (if storeOpened w then
          (RecordStatus
            (w.replaceOneError (buildStatus w.now "Succeeded" p.installArguments
              p.correlationId (processArmOutput w outputs p.installArguments p.correlationId).1
              w.cfg.SubscriptionID))
            w.collection
            (buildStatus w.now "Succeeded" p.installArguments p.correlationId
              (processArmOutput w outputs p.installArguments p.correlationId).1
              w.cfg.SubscriptionID)).1
         else w.collection)) := by
  constructor
  · intro e hdep
    cases hs : storeOpened w with
    | true =>
      unfold deployAndRecord
      simp only [createMongoRepository_opened w _ _ hs, hloc, hdep, updateStatus]
      split <;> simp_all
    | false =>
      obtain ⟨err, t, hc, _⟩ := createMongoRepository_closed w
        (getDatabaseName p.installArguments) (getCollectionName p.installArguments) hs
      unfold deployAndRecord
      simp [hc, hloc, hdep, updateStatus]
  · intro outputs hdep
    rcases hpo : processArmOutput w outputs p.installArguments p.correlationId with
      ⟨outputStr, t8⟩
    cases hs : storeOpened w with
    | true =>
      unfold deployAndRecord
      simp only [createMongoRepository_opened w _ _ hs, hloc, hdep, hpo, updateStatus]
      split <;> simp_all
    | false =>
      obtain ⟨err, t, hc, _⟩ := createMongoRepository_closed w
        (getDatabaseName p.installArguments) (getCollectionName p.installArguments) hs
      unfold deployAndRecord
      simp [hc, hloc, hdep, hpo, updateStatus]

/-- C7: when the request is valid, the credential and the template are obtained and `Deploy`
returns the error e, `Install` returns e; it hands `RecordStatus` one record when the status
store was opened and none otherwise; that record is "Failed", holds e as output, is active and
carries the correlation id of the request; no "Succeeded" record is written.  When the write
succeeds the collection is what the upsert of that record leaves, and without an opened store
the collection is untouched. -/
theorem Install_deploy_error (w : World) (p : Prepared) (t : List Event) (location : String)
    (e : Error) (hprep : prepare w = (Outcome.ok p, t))
    (hloc : (mapIndex p.installArguments.Parameters "location").asString = some location)
    (hdep : w.deploy p.installArguments.Name p.installArguments.ResourceGroup location
      p.template p.installArguments.Parameters = Except.error e) :
    (Install w).result = Outcome.error e ∧
    recordedStatuses (Install w).trace =
      (if storeOpened w then
        [buildStatus w.now "Failed" p.installArguments p.correlationId e w.cfg.SubscriptionID]
       else []) ∧
    (∀ s ∈ recordedStatuses (Install w).trace,
      s.ExecutionStatus = "Failed" ∧ s.Output = e ∧ s.IsActive = true ∧
      s.CorrelationId = p.correlationId ∧ s.ExecutionStatus ≠ "Succeeded") ∧
    (∃ payload parsed, w.stdin = Except.ok payload ∧
      parseInstallAction w.unmarshal payload = (parsed, none) ∧
      validateInstallArguments parsed = none ∧
      (mapGet parsed.Parameters "correlationId" = some (Value.str p.correlationId) ∨
        (mapGet parsed.Parameters "correlationId" = none ∧ p.correlationId = ""))) ∧
    (∀ s ∈ recordedStatuses (Install w).trace, w.replaceOneError s = none →
      (Install w).collection =
        replaceOneUpsert w.collection (recordStatusFilter s) s.toDocument) ∧
    (storeOpened w = false → (Install w).collection = w.collection) := by
  obtain ⟨hr, ht, hcoll⟩ := Install_of_prepare w p t hprep
  have h5 := (deployAndRecord_collection w p location hloc).1 e hdep
  obtain ⟨h1, h2, _⟩ := deployAndRecord_failed w p location e hloc hdep
  obtain ⟨he, _, _, _⟩ := early_facts t (by have := prepare_early w; rw [hprep] at this; exact this)
  have hrec : recordedStatuses (Install w).trace =
      (if storeOpened w then
        [buildStatus w.now "Failed" p.installArguments p.correlationId e w.cfg.SubscriptionID]
       else []) := by
    rw [ht, recordedStatuses_append, he, h2]
    rfl
  refine ⟨by rw [hr, h1], hrec, ?_, ?_, ?_, ?_⟩
  · intro s hs
    rw [hrec] at hs
    cases hso : storeOpened w with
    | false => simp [hso] at hs
    | true =>
      simp only [hso, if_true, List.mem_singleton] at hs
      subst hs
      refine ⟨rfl, rfl, rfl, rfl, ?_⟩
      show "Failed" ≠ "Succeeded"
      decide
  · obtain ⟨payload, parsed, t1, hin, hq, hv, hc⟩ := prepare_ok w p t hprep
    refine ⟨payload, parsed, hin, hq, hv, ?_⟩
    rcases getCorrelationId_ok parsed p.installArguments p.correlationId t1 hc with
      ⟨h3, h4, _⟩ | ⟨h3, _⟩
    · exact Or.inr ⟨h3, h4⟩
    · exact Or.inl h3
  · intro s hs hok
    rw [hrec] at hs
    cases hso : storeOpened w with
    | false => simp [hso] at hs
    | true =>
      simp only [hso, if_true, List.mem_singleton] at hs
      subst hs
      rw [hcoll, h5, hso]
      simp only [if_true]
      unfold RecordStatus
      rw [hok]
  · intro hso
    rw [hcoll, h5, hso]
    rfl

/-- C7, at the failure scenario: the store is reachable and the deployment is refused. -/
theorem Install_deploy_error_witness :
    (Install failingWorld).result = Outcome.error "deployment failed: quota exceeded" ∧
    recordedStatuses (Install failingWorld).trace =
      [buildStatus 1700000100 "Failed" samplePrepared.installArguments "c1"
        "deployment failed: quota exceeded" "sub-1"] := by
  have h := Install_deploy_error failingWorld samplePrepared (prepare failingWorld).2 "eastus"
    "deployment failed: quota exceeded" rfl rfl rfl
  exact ⟨h.1, h.2.1⟩

/-- C8: how `Install` ends does not depend on the status store: with another connection
string (empty or not), other outcomes of connect and ping, other outcomes of the status
writes and another collection, the run returns the same result.  For a valid request that
reaches the deployment both runs return nil when the deployment succeeds and its error when
it fails. -/
theorem Install_result_independent_of_store (w : World) (connectionStr : String)
    (mongoConnect mongoPing : String → Option Error)
    (replaceOneError : Status → Option Error) (collection : Collection) :
    (Install (withStore w connectionStr mongoConnect mongoPing replaceOneError
      collection)).result = (Install w).result ∧
    (∀ p t location, prepare w = (Outcome.ok p, t) →
      (mapIndex p.installArguments.Parameters "location").asString = some location →
      (∀ outputs, w.deploy p.installArguments.Name p.installArguments.ResourceGroup location
          p.template p.installArguments.Parameters = Except.ok outputs →
        (Install w).result = Outcome.ok () ∧
        (Install (withStore w connectionStr mongoConnect mongoPing replaceOneError
          collection)).result = Outcome.ok ()) ∧
      (∀ e, w.deploy p.installArguments.Name p.installArguments.ResourceGroup location
          p.template p.installArguments.Parameters = Except.error e →
        (Install w).result = Outcome.error e ∧
        (Install (withStore w connectionStr mongoConnect mongoPing replaceOneError
          collection)).result = Outcome.error e)) := by
  have hsame := Install_result_withStore w connectionStr mongoConnect mongoPing
    replaceOneError collection
  refine ⟨hsame, ?_⟩
  intro p t location hprep hloc
  obtain ⟨hr, _, _⟩ := Install_of_prepare w p t hprep
  constructor
  · intro outputs hdep
    have h := (deployAndRecord_succeeded w p location outputs hloc hdep).1
    exact ⟨by rw [hr, h], by rw [hsame, hr, h]⟩
  · intro e hdep
    have h := (deployAndRecord_failed w p location e hloc hdep).1
    exact ⟨by rw [hr, h], by rw [hsame, hr, h]⟩

/-- C8, at the end-to-end scenario without a store and with a reachable one whose writes
fail. -/
theorem Install_result_independent_of_store_witness :
    (Install (withStore sampleWorld "mongodb://status" (fun _ => none) (fun _ => none)
      (fun _ => some "write failed") [])).result = (Install sampleWorld).result ∧
    (Install sampleWorld).result = Outcome.ok () := by
  have h := Install_result_independent_of_store sampleWorld "mongodb://status"
    (fun _ => none) (fun _ => none) (fun _ => some "write failed") []
  exact ⟨h.1, ((h.2 samplePrepared (prepare sampleWorld).2 "eastus" rfl rfl).1
    (some [("myHost", Value.str "10.0.0.1")]) rfl).1⟩

/-- The release of the status store on the two exit paths after `Deploy`: a run whose
deployment fails never calls `DisconnectMongoClient`, opened store or not; a run whose
deployment succeeds calls it exactly when the store was opened. -/
theorem Install_disconnect (w : World) (p : Prepared) (t : List Event) (location : String)
    (hprep : prepare w = (Outcome.ok p, t))
    (hloc : (mapIndex p.installArguments.Parameters "location").asString = some location) :
    (∀ e, w.deploy p.installArguments.Name p.installArguments.ResourceGroup location
        p.template p.installArguments.Parameters = Except.error e →
      (Install w).trace.any Event.isDisconnect = false) ∧
    (∀ outputs, w.deploy p.installArguments.Name p.installArguments.ResourceGroup location
        p.template p.installArguments.Parameters = Except.ok outputs →
      (Install w).trace.any Event.isDisconnect = storeOpened w) := by
  obtain ⟨_, ht, _⟩ := Install_of_prepare w p t hprep
  obtain ⟨_, hd, _, _⟩ := early_facts t (by have := prepare_early w; rw [hprep] at this; exact this)
  constructor
  · intro e hdep
    rw [ht]
    exact any_append_false _ _ _ hd (deployAndRecord_failed w p location e hloc hdep).2.2
  · intro outputs hdep
    rw [ht, List.any_append, hd, (deployAndRecord_succeeded w p location outputs hloc hdep).2.2.1]
    rfl

/-- C9, at the failure scenario: the run opens the status store, the deployment is refused,
`Install` returns the error, and the trace holds no call of `DisconnectMongoClient`; the same
world with a deployment that succeeds does disconnect. -/
theorem Install_failed_deploy_leaves_store_open :
    storeOpened failingWorld = true ∧
    (Install failingWorld).trace.any Event.isMongoConnect = true ∧
    (Install failingWorld).result = Outcome.error "deployment failed: quota exceeded" ∧
    (Install failingWorld).trace.any Event.isDisconnect = false ∧
    (Install storeWorld).trace.any Event.isDisconnect = true := by
  refine ⟨by decide, by decide, rfl, by decide, by decide⟩

/-- C10: when a declared output's key matches no raw output key ignoring case,
`processArmOutput` returns the empty string and does nothing else (no log line, no output
file), whatever the other declared outputs are; and a run of `Install` that reaches it still
returns nil, writes no output file and, when the status store was opened, hands `RecordStatus`
exactly one record: its execution status is "Succeeded" (not "Failed"), its output is the empty
string, it is active and carries the correlation id, subscription, resource group and template
of the run.  When the write succeeds the collection is what the upsert of that record leaves,
and without an opened store the collection is untouched. -/
theorem processArmOutput_missing_output (w : World)
    (hidem : ∀ s, w.toUpper (w.toUpper s) = w.toUpper s) :
    (∀ (outputs : Option Entries) (installArguments : InstallArguments) (correlationId : String),
      (∃ o ∈ installArguments.Outputs,
        ∀ e ∈ outputs.getD [], w.toUpper e.1 ≠ w.toUpper o.Key) →
      processArmOutput w outputs installArguments correlationId = ("", [])) ∧
    (∀ (p : Prepared) (t : List Event) (location : String) (outputs : Option Entries),
      prepare w = (Outcome.ok p, t) →
      (mapIndex p.installArguments.Parameters "location").asString = some location →
      w.deploy p.installArguments.Name p.installArguments.ResourceGroup location
        p.template p.installArguments.Parameters = Except.ok outputs →
      (∃ o ∈ p.installArguments.Outputs,
        ∀ e ∈ outputs.getD [], w.toUpper e.1 ≠ w.toUpper o.Key) →
      (Install w).result = Outcome.ok () ∧
      recordedStatuses (Install w).trace =
        (if storeOpened w then
          [buildStatus w.now "Succeeded" p.installArguments p.correlationId ""
            w.cfg.SubscriptionID]
         else []) ∧
      (Install w).trace.any Event.isWriteFile = false ∧
      (storeOpened w = true → (recordedStatuses (Install w).trace).length = 1) ∧
      (∀ s ∈ recordedStatuses (Install w).trace,
        s.ExecutionStatus = "Succeeded" ∧ s.Output = "" ∧ s.IsActive = true ∧
        s.CorrelationId = p.correlationId ∧ s.PorterCorrelationId = p.correlationId ∧
        s.SubscriptionId = w.cfg.SubscriptionID ∧
        s.ResourceGroupName = p.installArguments.ResourceGroup ∧
        s.InstallationName = p.installArguments.Template ∧ s.MixInName = "arm" ∧
        s.StatusReportedOn = w.now ∧ s.ExecutionStatus ≠ "Failed") ∧
      (∀ s ∈ recordedStatuses (Install w).trace, w.replaceOneError s = none →
        (Install w).collection =
          replaceOneUpsert w.collection (recordStatusFilter s) s.toDocument) ∧
      (storeOpened w = false → (Install w).collection = w.collection)) := by
  have hfirst : ∀ (outputs : Option Entries) (installArguments : InstallArguments)
      (correlationId : String),
      (∃ o ∈ installArguments.Outputs,
        ∀ e ∈ outputs.getD [], w.toUpper e.1 ≠ w.toUpper o.Key) →
      processArmOutput w outputs installArguments correlationId = ("", []) := by
    intro outputs installArguments correlationId hmiss
    obtain ⟨o, ho, hno⟩ := hmiss
    unfold processArmOutput
    dsimp only
    rw [collectOutputs_none w.toUpper _ installArguments.Outputs []
      ⟨o, ho, upperKeys_lookup_none w.toUpper hidem _ o.Key hno⟩]
  refine ⟨hfirst, ?_⟩
  intro p t location outputs hprep hloc hdep hmiss
  obtain ⟨hr, ht, hcoll⟩ := Install_of_prepare w p t hprep
  obtain ⟨he, _, hw, _⟩ :=
    early_facts t (by have := prepare_early w; rw [hprep] at this; exact this)
  obtain ⟨h1, h2, _, h4⟩ := deployAndRecord_succeeded w p location outputs hloc hdep
  have h5 := (deployAndRecord_collection w p location hloc).2 outputs hdep
  have hpo := hfirst outputs p.installArguments p.correlationId hmiss
  rw [hpo] at h2 h4 h5
  have hrec : recordedStatuses (Install w).trace =
      (if storeOpened w then
        [buildStatus w.now "Succeeded" p.installArguments p.correlationId ""
          w.cfg.SubscriptionID]
       else []) := by
    rw [ht, recordedStatuses_append, he, h2]
    rfl
  refine ⟨by rw [hr, h1], hrec, ?_, ?_, ?_, ?_, ?_⟩
  · rw [ht]
    exact any_append_false _ _ _ hw h4
  · intro hso
    rw [hrec, hso]
    rfl
  · intro s hs
    rw [hrec] at hs
    cases hso : storeOpened w with
    | false => simp [hso] at hs
    | true =>
      simp only [hso, if_true, List.mem_singleton] at hs
      subst hs
      refine ⟨rfl, rfl, rfl, rfl, rfl, rfl, rfl, rfl, rfl, rfl, ?_⟩
      show "Succeeded" ≠ "Failed"
      decide
  · intro s hs hok
    rw [hrec] at hs
    cases hso : storeOpened w with
    | false => simp [hso] at hs
    | true =>
      simp only [hso, if_true, List.mem_singleton] at hs
      subst hs
      rw [hcoll, h5, hso]
      simp only [if_true]
      unfold RecordStatus
      rw [hok]
  · intro hso
    rw [hcoll, h5, hso]
    rfl

/-- C10, at the gap scenario: the raw output "other" does not match the declared "MYHOST";
the one record of the run reads "Succeeded" with the empty output. -/
theorem processArmOutput_missing_output_witness :
    processArmOutput gapWorld (some [("other", Value.str "x")]) sampleArguments "c1" = ("", []) ∧
    (Install gapWorld).result = Outcome.ok () ∧
    (recordedStatuses (Install gapWorld).trace).length = 1 ∧
    (∀ s ∈ recordedStatuses (Install gapWorld).trace,
      s.ExecutionStatus = "Succeeded" ∧ s.Output = "" ∧ s.IsActive = true ∧
      s.CorrelationId = "c1") ∧
    (recordedStatuses (Install gapWorld).trace).map
      (fun s => (s.ExecutionStatus, s.Output, s.IsActive, s.CorrelationId)) =
      [("Succeeded", "", true, "c1")] ∧
    (Install gapWorld).trace.any Event.isWriteFile = false := by
  have hgap : ∃ o ∈ sampleArguments.Outputs,
      ∀ e ∈ (some [("other", Value.str "x")] : Option Entries).getD [],
        gapWorld.toUpper e.1 ≠ gapWorld.toUpper o.Key := by
    refine ⟨{ Name := "HOST", Key := "MYHOST" }, by simp [sampleArguments], ?_⟩
    intro e he
    rw [Option.getD_some, List.mem_singleton] at he
    subst he
    show asciiUpper "other" ≠ asciiUpper "MYHOST"
    decide
  have h := processArmOutput_missing_output gapWorld asciiUpper_idem
  obtain ⟨h1, _, h3, h4, h5, _⟩ := h.2 samplePrepared (prepare gapWorld).2 "eastus"
    (some [("other", Value.str "x")]) rfl rfl rfl hgap
  refine ⟨h.1 _ sampleArguments "c1" hgap, h1, h4 (by decide), ?_, by decide, h3⟩
  intro s hs
  obtain ⟨a, b, c, d, _⟩ := h5 s hs
  exact ⟨a, b, c, d⟩

theorem keyFunc_no_panic (keys : KeySet) (token : Token) (r : String) :
    keyFunc (some keys) token ≠ Outcome.panic r := by
  unfold keyFunc
  by_cases hm : token.Method = "RS256"
  · simp only [hm, ne_eq, not_true_eq_false, if_false]
    cases (mapIndex (some token.Header) "kid").asString with
    | none => simp
    | some kid =>
      dsimp only
      cases LookupKeyID keys kid with
      | none => simp
      | some key =>
        dsimp only
        cases key.Raw <;> simp
  · simp [hm]

/-- C4: for a decoded token and a fetched key set, `verifyAccessToken` returns an error and
no claims when the signing method is not RS256 (the key function's "unexpected signing
method" error), when the key id of the header is not in the key set ("the key ... not
found"), and when the appid or tid claim is blank after trimming; on a token the library
accepts, the missing-claim error names the claim, AppID before TenantID; the errors of the
three cases are pairwise different, and so are the two missing-claim errors. -/
theorem verifyAccessToken_rejects (env : AuthEnv) (accessToken : String) (token : Token)
    (keys : KeySet) (hparse : env.parseUnverified accessToken = Except.ok token)
    (hkeys : env.fetchKeys MicrosoftEntraIDCommonPublicKeysEndpoint = some keys) :
    (token.Method ≠ "RS256" →
      (verifyAccessToken env accessToken).1 =
        Outcome.error ("token is unverifiable: error while executing keyfunc: " ++
          ("unexpected signing method: " ++ fmtV (mapIndex (some token.Header) "alg")))) ∧
    (∀ kid, token.Method = "RS256" → mapIndex (some token.Header) "kid" = Value.str kid →
      LookupKeyID keys kid = none →
      (verifyAccessToken env accessToken).1 =
        Outcome.error ("token is unverifiable: error while executing keyfunc: " ++
          ("the key \x27" ++ kid ++ "\x27 not found"))) ∧
    ((isBlank token.Claims.AppID = true ∨ isBlank token.Claims.TenantID = true) →
      ∃ err, (verifyAccessToken env accessToken).1 = Outcome.error err) ∧
    (∀ kid key publickey, token.Method = "RS256" →
      mapIndex (some token.Header) "kid" = Value.str kid →
      LookupKeyID keys kid = some key → key.Raw = Except.ok publickey →
      env.verifySignature token publickey = none → env.validateRegistered token = none →
      (isBlank token.Claims.AppID = true →
        (verifyAccessToken env accessToken).1 =
          Outcome.error "the claim \x27AppID\x27 is not found in the access token") ∧
      (isBlank token.Claims.AppID = false → isBlank token.Claims.TenantID = true →
        (verifyAccessToken env accessToken).1 =
          Outcome.error "the claim \x27TenantID\x27 is not found in the access token")) ∧
    (∀ alg kid : String,
      "token is unverifiable: error while executing keyfunc: " ++
          ("unexpected signing method: " ++ alg) ≠
        "token is unverifiable: error while executing keyfunc: " ++
          ("the key \x27" ++ kid ++ "\x27 not found") ∧
      "token is unverifiable: error while executing keyfunc: " ++
          ("unexpected signing method: " ++ alg) ≠
        "the claim \x27AppID\x27 is not found in the access token" ∧
      "token is unverifiable: error while executing keyfunc: " ++
          ("unexpected signing method: " ++ alg) ≠
        "the claim \x27TenantID\x27 is not found in the access token" ∧
      "token is unverifiable: error while executing keyfunc: " ++
          ("the key \x27" ++ kid ++ "\x27 not found") ≠
        "the claim \x27AppID\x27 is not found in the access token" ∧
      "token is unverifiable: error while executing keyfunc: " ++
          ("the key \x27" ++ kid ++ "\x27 not found") ≠
        "the claim \x27TenantID\x27 is not found in the access token" ∧
      ("the claim \x27AppID\x27 is not found in the access token" : String) ≠
        "the claim \x27TenantID\x27 is not found in the access token") := by
  refine ⟨?_, ?_, ?_, ?_, ?_⟩
  · intro hm
    simp [verifyAccessToken, ParseWithClaims, hparse, keyFunc, hm]
  · intro kid hm hkid hlook
    simp [verifyAccessToken, ParseWithClaims, hparse, hkeys, keyFunc, hm, hkid, hlook,
      Value.asString]
  · intro hblank
    unfold verifyAccessToken
    dsimp only
    cases hp : ParseWithClaims env accessToken
        (keyFunc (env.fetchKeys MicrosoftEntraIDCommonPublicKeysEndpoint)) with
    | panic r =>
      exfalso
      unfold ParseWithClaims at hp
      simp only [hparse, hkeys] at hp
      have hk := keyFunc_no_panic keys token
      cases hkf : keyFunc (some keys) token with
      | panic r0 => exact hk r0 hkf
      | error e => simp [hkf] at hp
      | ok key =>
        simp only [hkf] at hp
        split at hp
        · simp at hp
        · split at hp <;> simp at hp
    | error err => exact ⟨err, rfl⟩
    | ok tok =>
      have hc : tok.Claims = token.Claims ∧ tok.Valid = true := by
        unfold ParseWithClaims at hp
        simp only [hparse] at hp
        split at hp
        · simp at hp
        · simp at hp
        · split at hp
          · simp at hp
          · split at hp
            · simp at hp
            · simp only [Outcome.ok.injEq] at hp
              rw [← hp]
              exact ⟨rfl, rfl⟩
      simp only [hc.1, hc.2, validateClaim]
      rcases hblank with hb | hb
      · simp [hb]
      · cases ha : isBlank token.Claims.AppID <;> simp [hb]
  · intro kid key publickey hm hkid hlook hraw hsig hval
    constructor
    · intro hb
      simp [verifyAccessToken, ParseWithClaims, hparse, hkeys, keyFunc, hm, hkid, hlook, hraw,
        hsig, hval, Value.asString, validateClaim, hb]
    · intro ha hb
      simp [verifyAccessToken, ParseWithClaims, hparse, hkeys, keyFunc, hm, hkid, hlook, hraw,
        hsig, hval, Value.asString, validateClaim, ha, hb]
  · intro alg kid
    refine ⟨?_, ?_, ?_, ?_, ?_, by decide⟩ <;>
    · intro h
      have := congrArg String.data h
      simp at this

/-- C4, at an HS256 token, at a key set without the key id, and at a blank tenant claim. -/
theorem verifyAccessToken_rejects_witness :
    (verifyAccessToken hs256Auth "header.payload.signature").1 =
      Outcome.error
        "token is unverifiable: error while executing keyfunc: unexpected signing method: HS256" ∧
    (verifyAccessToken unknownKeyAuth "header.payload.signature").1 =
      Outcome.error
        "token is unverifiable: error while executing keyfunc: the key \x27k1\x27 not found" ∧
    (verifyAccessToken blankTenantAuth "header.payload.signature").1 =
      Outcome.error "the claim \x27TenantID\x27 is not found in the access token" :=
  ⟨(verifyAccessToken_rejects hs256Auth "header.payload.signature" hs256Token
      [{ KeyID := "k1", Raw := Except.ok 7 }] rfl rfl).1 (by decide),
   (verifyAccessToken_rejects unknownKeyAuth "header.payload.signature" sampleToken
      [{ KeyID := "k2", Raw := Except.ok 9 }] rfl rfl).2.1 "k1" rfl rfl rfl,
   ((verifyAccessToken_rejects blankTenantAuth "header.payload.signature" blankTenantToken
      [{ KeyID := "k1", Raw := Except.ok 7 }] rfl rfl).2.2.2.1 "k1"
      { KeyID := "k1", Raw := Except.ok 7 } 7 rfl rfl rfl rfl rfl rfl).2 (by decide) (by decide)⟩

/-- Two writes of records that `updateStatus` builds for one identity key, into an empty
collection, leave two active records of that key: the filter asks for the field
"CorrelationId", stored documents hold "correlationid", so the second write matches nothing
and is inserted. -/
theorem RecordStatus_twice_leaves_two_active (now now' : Nat) (statusValue statusValue' : String)
    (installArguments : InstallArguments) (correlationId output output' subscriptionId : String) :
    (activeRecordsOf subscriptionId installArguments.ResourceGroup correlationId "arm"
      (RecordStatus none
        (RecordStatus none []
          (buildStatus now statusValue installArguments correlationId output subscriptionId)).1
        (buildStatus now' statusValue' installArguments correlationId output'
          subscriptionId)).1).length = 2 := by
  simp [RecordStatus, replaceOneUpsert, replaceFirst, matchesFilter, recordStatusFilter,
    Status.toDocument, buildStatus, Document.field, activeRecordsOf, isActiveRecordOf]

/-- C5, at the failing input: "Succeeded" recorded twice for (sub-1, rg1, c1, arm) leaves two
documents, both active records of that key, where the claim promises one. -/
theorem RecordStatus_twice_example :
    (RecordStatus none
      (RecordStatus none []
        (buildStatus 1700000100 "Succeeded" samplePrepared.installArguments "c1" "" "sub-1")).1
      (buildStatus 1700000200 "Succeeded" samplePrepared.installArguments "c1" ""
        "sub-1")).1.length = 2 ∧
    (activeRecordsOf "sub-1" "rg1" "c1" "arm"
      (RecordStatus none
        (RecordStatus none []
          (buildStatus 1700000100 "Succeeded" samplePrepared.installArguments "c1" ""
            "sub-1")).1
        (buildStatus 1700000200 "Succeeded" samplePrepared.installArguments "c1" ""
          "sub-1")).1).length = 2 := by
  refine ⟨by decide, by decide⟩

/-! ## C11: the correlation id and the map Deploy receives -/

theorem lookup_deleteKey (k k' : String) (m : Entries) :
    lookup k (deleteKey k' m) = if k = k' then none else lookup k m := by
  induction m with
  | nil => simp [deleteKey, lookup]
  | cons e rest ih =>
    obtain ⟨k0, v0⟩ := e
    simp only [deleteKey, ne_eq, decide_not] at ih
    simp only [deleteKey, ne_eq, decide_not, List.filter_cons]
    by_cases h0 : k0 = k'
    · by_cases h1 : k = k'
      · subst h0 h1
        simpa [lookup] using ih
      · have h3 : ¬ k' = k := fun h => h1 h.symm
        simp [h0, h1, h3, lookup, ih]
    · by_cases h1 : k = k'
      · subst h1
        have h2 : ¬ k0 = k := h0
        simpa [h0, lookup] using ih
      · by_cases h2 : k0 = k <;> simp [h0, h1, h2, lookup, ih]

theorem deployParameters_append (a b : List Event) :
    deployParameters (a ++ b) = deployParameters a ++ deployParameters b := by
  induction a with
  | nil => rfl
  | cons ev rest ih => cases ev <;> simp [deployParameters, ih]

theorem deployParameters_early (t : List Event) (h : t.all (fun ev => !ev.isLate) = true) :
    deployParameters t = [] := by
  induction t with
  | nil => rfl
  | cons ev rest ih =>
    simp only [List.all_cons, Bool.and_eq_true] at h
    cases ev <;> simp_all [deployParameters, Event.isLate]

theorem createMongoRepository_deployParameters (w : World) (conn db coll : String) :
    deployParameters (createMongoRepository w conn db coll).2 = [] := by
  unfold createMongoRepository NewMongoClientHelper
  by_cases h1 : conn = ""
  · simp [h1, deployParameters]
  · cases h2 : w.mongoConnect conn with
    | some e => simp [h1, h2, deployParameters]
    | none => cases h3 : w.mongoPing conn <;> simp [h1, h2, h3, deployParameters]

theorem processArmOutput_deployParameters (w : World) (outputs : Option Entries)
    (a : InstallArguments) (c : String) :
    deployParameters (processArmOutput w outputs a c).2 = [] := by
  unfold processArmOutput
  dsimp only
  split
  · rfl
  · split
    · rfl
    · split <;> rfl

theorem updateStatus_deployParameters (w : World) (repository : Option StatusRepository)
    (coll : Collection) (statusValue : String) (a : InstallArguments)
    (c output sub : String) :
    deployParameters (updateStatus w repository coll statusValue a c output sub).2 = [] := by
  unfold updateStatus
  cases repository with
  | none => rfl
  | some r =>
    dsimp only
    unfold RecordStatus
    cases w.replaceOneError (buildStatus w.now statusValue a c output sub) <;> rfl

/-- The one call of `Deploy` in a run that reaches it gets the parameter map the first half
left behind. -/
theorem Install_deployParameters (w : World) (p : Prepared) (t : List Event)
    (location : String) (hprep : prepare w = (Outcome.ok p, t))
    (hloc : (mapIndex p.installArguments.Parameters "location").asString = some location) :
    deployParameters (Install w).trace = [p.installArguments.Parameters] := by
  obtain ⟨_, ht, _⟩ := Install_of_prepare w p t hprep
  have he := deployParameters_early t (by have := prepare_early w; rw [hprep] at this; exact this)
  rw [ht, deployParameters_append, he]
  have hm := createMongoRepository_deployParameters w w.cfg.Microsoft_StatusDBConnectionString
    (getDatabaseName p.installArguments) (getCollectionName p.installArguments)
  unfold deployAndRecord
  rcases hc : createMongoRepository w w.cfg.Microsoft_StatusDBConnectionString
    (getDatabaseName p.installArguments) (getCollectionName p.installArguments) with
    ⟨⟨helper, repository, err⟩, t4⟩
  rw [hc] at hm
  simp only [hloc]
  cases hd : w.deploy p.installArguments.Name p.installArguments.ResourceGroup location
      p.template p.installArguments.Parameters with
  | error e =>
    have hu := updateStatus_deployParameters w repository w.collection "Failed"
      p.installArguments p.correlationId e w.cfg.SubscriptionID
    rcases hus : updateStatus w repository w.collection "Failed"
      p.installArguments p.correlationId e w.cfg.SubscriptionID with ⟨coll, t6⟩
    rw [hus] at hu
    cases err <;>
      simp_all [deployParameters_append, deployParameters]
  | ok outputs =>
    have hp := processArmOutput_deployParameters w outputs p.installArguments p.correlationId
    rcases hpo : processArmOutput w outputs p.installArguments p.correlationId with
      ⟨outputStr, t8⟩
    rw [hpo] at hp
    have hu := updateStatus_deployParameters w repository w.collection "Succeeded"
      p.installArguments p.correlationId outputStr w.cfg.SubscriptionID
    rcases hus : updateStatus w repository w.collection "Succeeded"
      p.installArguments p.correlationId outputStr w.cfg.SubscriptionID with ⟨coll, t9⟩
    rw [hus] at hu
    cases err <;> cases repository <;> cases helper <;>
      simp_all [deployParameters_append, deployParameters]

/-- C11: `getCorrelationId`, as `Install` calls it (with the empty correlation id).  When the
parameters have no "correlationId" key, also when the map is nil, it returns the empty
correlation id and the arguments unchanged.  When they hold a string under "correlationId" it
returns that string, and the map it leaves has no "correlationId" key while every other key,
"location" included, reads as before; nothing else in the arguments changes.  In a run of
`Install` that reaches `Deploy`, the map `Deploy` receives is the one `getCorrelationId`
left. -/
theorem getCorrelationId_extracts (a : InstallArguments) :
    (mapGet a.Parameters "correlationId" = none →
      (getCorrelationId a "").1 = Outcome.ok ("", a)) ∧
    (∀ s, mapGet a.Parameters "correlationId" = some (Value.str s) →
      ∃ a', (getCorrelationId a "").1 = Outcome.ok (s, a') ∧
        mapGet a'.Parameters "correlationId" = none ∧
        (∀ k, k ≠ "correlationId" → mapGet a'.Parameters k = mapGet a.Parameters k) ∧
        a'.Template = a.Template ∧ a'.Name = a.Name ∧ a'.ResourceGroup = a.ResourceGroup ∧
        a'.Settings = a.Settings ∧ a'.Outputs = a.Outputs ∧ a'.Description = a.Description) ∧
    (∀ (w : World) (p : Prepared) (t : List Event) (location : String),
      prepare w = (Outcome.ok p, t) →
      (mapIndex p.installArguments.Parameters "location").asString = some location →
      ∃ payload parsed t1, w.stdin = Except.ok payload ∧
        parseInstallAction w.unmarshal payload = (parsed, none) ∧
        getCorrelationId parsed "" = (Outcome.ok (p.correlationId, p.installArguments), t1) ∧
        deployParameters (Install w).trace = [p.installArguments.Parameters]) := by
  refine ⟨?_, ?_, ?_⟩
  · intro h
    simp [getCorrelationId, h]
  · intro s h
    refine ⟨{ a with Parameters := a.Parameters.map (deleteKey "correlationId") }, ?_, ?_, ?_,
      rfl, rfl, rfl, rfl, rfl, rfl⟩
    · simp [getCorrelationId, h, Value.asString]
    · cases hp : a.Parameters with
      | none => rfl
      | some es => simp [mapGet, lookup_deleteKey]
    · intro k hk
      cases hp : a.Parameters with
      | none => rfl
      | some es => simp [mapGet, lookup_deleteKey, hk]
  · intro w p t location hprep hloc
    obtain ⟨payload, parsed, t1, hin, hq, _, hc⟩ := prepare_ok w p t hprep
    exact ⟨payload, parsed, t1, hin, hq, hc, Install_deployParameters w p t location hprep hloc⟩

/-- C11, at the request of the end-to-end scenario (correlation id "c1") and at the same
request without the key. -/
theorem getCorrelationId_extracts_witness :
    (getCorrelationId samplePrepared.installArguments "").1 =
      Outcome.ok ("", samplePrepared.installArguments) ∧
    (∃ a', (getCorrelationId sampleArguments "").1 = Outcome.ok ("c1", a') ∧
      mapGet a'.Parameters "correlationId" = none ∧
      mapGet a'.Parameters "location" = some (Value.str "eastus")) ∧
    deployParameters (Install sampleWorld).trace =
      [some [("location", Value.str "eastus")]] := by
  refine ⟨(getCorrelationId_extracts samplePrepared.installArguments).1 rfl, ?_, ?_⟩
  · obtain ⟨a', h1, h2, h3, _⟩ := (getCorrelationId_extracts sampleArguments).2.1 "c1" rfl
    exact ⟨a', h1, h2, by rw [h3 "location" (by decide)]; rfl⟩
  · obtain ⟨_, _, _, _, _, _, h⟩ := (getCorrelationId_extracts sampleArguments).2.2 sampleWorld
      samplePrepared (prepare sampleWorld).2 "eastus" rfl rfl
    exact h

/-! ## C12, C13: the unchecked reads -/

/-- After validation the read of "location" as a string succeeds on the map that
`getCorrelationId` leaves behind. -/
theorem location_survives (a a' : InstallArguments) (cid : String) (t : List Event)
    (hv : validateInstallArguments a = none)
    (hc : getCorrelationId a "" = (Outcome.ok (cid, a'), t)) :
    ∃ location, (mapIndex a'.Parameters "location").asString = some location := by
  have hloc : ∃ s, mapGet a.Parameters "location" = some (Value.str s) := by
    by_contra hne
    exact (validateInstallArguments_error_iff a).mpr (Or.inr (Or.inr (Or.inr hne))) hv
  obtain ⟨s, hs⟩ := hloc
  refine ⟨s, ?_⟩
  rcases getCorrelationId_ok a a' cid t hc with ⟨_, _, h3⟩ | ⟨_, h3⟩
  · rw [h3]
    simp [mapIndex, hs, Value.asString]
  · rw [h3]
    cases hp : a.Parameters with
    | none => simp [hp, mapGet] at hs
    | some es =>
      rw [hp] at hs
      simp only [mapGet] at hs
      simp [mapIndex, mapGet, lookup_deleteKey, hs, Value.asString]

/-- A validated request panics in `getCorrelationId` exactly when its parameters hold
something other than a string under "correlationId". -/
theorem getCorrelationId_panics_iff (a : InstallArguments) :
    (∃ r, (getCorrelationId a "").1 = Outcome.panic r) ↔
      ∃ v, mapGet a.Parameters "correlationId" = some v ∧ v.asString = none := by
  unfold getCorrelationId
  cases hg : mapGet a.Parameters "correlationId" with
  | none => simp
  | some v =>
    cases hv : v.asString with
    | none => simp [hv]
    | some s => simp [hv]

/-- C13, at the failing input: the request of the end-to-end scenario with the number 42
under "correlationId" passes `validateInstallArguments`, and the unchecked assertion
`.(string)` in `getCorrelationId` then panics; `Install` ends in that panic before any call
of `Deploy`. -/
theorem Install_numeric_correlationId_panics :
    validateInstallArguments numericCorrelationArguments = none ∧
    (getCorrelationId numericCorrelationArguments "").1 =
      Outcome.panic "interface conversion: interface is not string" ∧
    (Install numericCorrelationWorld).result =
      Outcome.panic "interface conversion: interface is not string" ∧
    deployParameters (Install numericCorrelationWorld).trace = [] := by
  refine ⟨by decide, rfl, rfl, rfl⟩

/-- C12, at the failing input: the verifier accepts a token that carries no nbf claim (and
one that carries no exp claim), and `GetBearerTokenAuthorizer` panics on the nil pointer
instead of building the token parameters; nothing is handed to the token constructor. -/
theorem GetBearerTokenAuthorizer_missing_nbf_panics :
    (verifyAccessToken noNbfAuth "header.payload.signature").1 =
      Outcome.ok noNbfToken.Claims ∧
    (GetBearerTokenAuthorizer noNbfAuth sampleWorld.cfg.Environment "tenant-0" "client-0"
      "secret-0" "header.payload.signature").1 =
      Outcome.panic "invalid memory address or nil pointer dereference" ∧
    manualTokenCalls (GetBearerTokenAuthorizer noNbfAuth sampleWorld.cfg.Environment "tenant-0"
      "client-0" "secret-0" "header.payload.signature").2 = [] ∧
    (verifyAccessToken noExpAuth "header.payload.signature").1 =
      Outcome.ok noExpToken.Claims ∧
    (GetBearerTokenAuthorizer noExpAuth sampleWorld.cfg.Environment "tenant-0" "client-0"
      "secret-0" "header.payload.signature").1 =
      Outcome.panic "invalid memory address or nil pointer dereference" ∧
    manualTokenCalls (GetBearerTokenAuthorizer noExpAuth sampleWorld.cfg.Environment "tenant-0"
      "client-0" "secret-0" "header.payload.signature").2 = [] := by
  refine ⟨rfl, rfl, by decide, rfl, rfl, by decide⟩

theorem newServicePrincipalToken_manual_trace (env : AuthEnv)
    (p : ServicePrincipalTokenParameters)
    (hcfg : env.newOAuthConfigError p.AzureEnvironment.ActiveDirectoryEndpoint p.TenantID =
      none) :
    (newServicePrincipalToken env p OAuthTokenGrantFlow.Undefined).2 =
      [Event.newOAuthConfig p.AzureEnvironment.ActiveDirectoryEndpoint p.TenantID,
       Event.newServicePrincipalTokenFromManualToken
        { AuthorityEndpoint := p.AzureEnvironment.ActiveDirectoryEndpoint,
          TenantID := p.TenantID } p.ClientID p.Resource p.Token] := by
  unfold newServicePrincipalToken
  simp [hcfg]

/-- The token parameters of an accepted pre-issued token that carries both nbf and exp, as
they reach `NewServicePrincipalTokenFromManualToken`: client and tenant from the claims, the
first audience entry (or the empty string) as resource, the supplied token, type "Bearer",
and the lifetime exp - nbf, which is exact whenever the difference fits 64 bits. -/
theorem GetBearerTokenAuthorizer_preIssued_parameters (env : AuthEnv)
    (azureEnvironment : Environment) (tenantID clientID clientSecret accessToken : String)
    (claims : AccessTokenAzureClaims) (t : List Event) (notBefore expiresOn : Int)
    (hblank : isBlank accessToken = false)
    (hv : verifyAccessToken env accessToken = (Outcome.ok claims, t))
    (hnb : claims.Registered.NotBefore = some notBefore)
    (hex : claims.Registered.ExpiresAt = some expiresOn)
    (hcfg : env.newOAuthConfigError azureEnvironment.ActiveDirectoryEndpoint claims.TenantID =
      none) :
    manualTokenCalls (GetBearerTokenAuthorizer env azureEnvironment tenantID clientID
      clientSecret accessToken).2 =
      [({ AuthorityEndpoint := azureEnvironment.ActiveDirectoryEndpoint,
          TenantID := claims.TenantID },
        claims.AppID, claims.Registered.Audience.headD "",
        { AccessToken := accessToken,
          ExpiresIn := toString (subInt64 expiresOn notBefore),
          ExpiresOn := toString expiresOn,
          NotBefore := toString notBefore,
          Resource := claims.Registered.Audience.headD "",
          Type_ := "Bearer" })] ∧
    (-(2 : Int) ^ 63 ≤ expiresOn - notBefore → expiresOn - notBefore < 2 ^ 63 →
      subInt64 expiresOn notBefore = expiresOn - notBefore) := by
  constructor
  · have ht := verifyAccessToken_trace env accessToken
    rw [hv] at ht
    simp only at ht
    subst ht
    have hpp : preIssuedParameters
        { AzureEnvironment := azureEnvironment, TenantID := tenantID, ClientID := clientID,
          ClientSecret := clientSecret, Resource := "", Token := AdalToken.zero }
        accessToken claims =
        Outcome.ok
          { AzureEnvironment := azureEnvironment, TenantID := claims.TenantID,
            ClientID := claims.AppID, ClientSecret := clientSecret,
            Resource := claims.Registered.Audience.headD "",
            Token :=
              { AccessToken := accessToken,
                ExpiresIn := toString (subInt64 expiresOn notBefore),
                ExpiresOn := toString expiresOn,
                NotBefore := toString notBefore,
                Resource := claims.Registered.Audience.headD "",
                Type_ := "Bearer" } } := by
      unfold preIssuedParameters
      simp only [hnb, hex]
      cases claims.Registered.Audience <;> rfl
    unfold GetBearerTokenAuthorizer
    simp only [hblank, Bool.not_false, if_true, hv, hpp]
    have hf := finishAuthorizer_trace env
      { AzureEnvironment := azureEnvironment, TenantID := claims.TenantID,
        ClientID := claims.AppID, ClientSecret := clientSecret,
        Resource := claims.Registered.Audience.headD "",
        Token :=
          { AccessToken := accessToken,
            ExpiresIn := toString (subInt64 expiresOn notBefore),
            ExpiresOn := toString expiresOn,
            NotBefore := toString notBefore,
            Resource := claims.Registered.Audience.headD "",
            Type_ := "Bearer" } } OAuthTokenGrantFlow.Undefined
    rw [newServicePrincipalToken_manual_trace env _ hcfg] at hf
    rcases hfa : finishAuthorizer env
      { AzureEnvironment := azureEnvironment, TenantID := claims.TenantID,
        ClientID := claims.AppID, ClientSecret := clientSecret,
        Resource := claims.Registered.Audience.headD "",
        Token :=
          { AccessToken := accessToken,
            ExpiresIn := toString (subInt64 expiresOn notBefore),
            ExpiresOn := toString expiresOn,
            NotBefore := toString notBefore,
            Resource := claims.Registered.Audience.headD "",
            Type_ := "Bearer" } } OAuthTokenGrantFlow.Undefined with ⟨res, trace2⟩
    rw [hfa] at hf
    simp only at hf
    subst hf
    rfl
  · intro h1 h2
    unfold subInt64
    omega

end Arm
